import Mathlib

/-!
Shallow embedding of the esp32_provisioner core: the node registry
(`ble_mesh_storage.c`), the composition parser and config-client dispatcher
(`ble_mesh_callbacks.c`), the auto-configuration step functions
(`ble_mesh_auto_config.c`), the sensor MPID decoder, and the mesh-to-MQTT
bridge (`mesh_mqtt_bridge.c`).  Machine integers are modelled as `Nat`
(with explicit masking where the C code masks); byte buffers are `List Nat`
consumed from the front, mirroring `net_buf_simple_pull`.
-/

namespace ESP32Prov

/-- `ESP_BLE_MESH_CID_NVAL`: company id sentinel meaning "SIG (standard) model". -/
def ESP_BLE_MESH_CID_NVAL : Nat := 0xFFFF

/-! ## Model classification helpers (`ble_mesh_auto_config.c`) -/

/-- The SIG model ids accepted by the `switch` in `model_supports_publication`. -/
def sig_publication_model_ids : List Nat :=
  [0x1000, 0x1002, 0x1004, 0x1006, 0x1008, 0x100A, 0x100C, 0x100E,
   0x1100, 0x1200, 0x1201, 0x1300, 0x1301, 0x1303, 0x1304]

/-- `model_supports_publication` from `ble_mesh_auto_config.c`:
vendor models always publish; SIG models publish iff listed in the switch. -/
def model_supports_publication (model_id company_id : Nat) : Bool :=
  if company_id ≠ ESP_BLE_MESH_CID_NVAL then
    true
  else
    sig_publication_model_ids.contains model_id

/-- `model_supports_subscription` from `ble_mesh_auto_config.c`:
vendor models subscribe iff model id 0x0000 (the vendor client);
SIG models subscribe iff Sensor Client (0x1102). -/
def model_supports_subscription (model_id company_id : Nat) : Bool :=
  if company_id ≠ ESP_BLE_MESH_CID_NVAL then
    model_id = 0x0000
  else
    model_id = 0x1102

/-- `model_needs_appkey_binding` from `ble_mesh_auto_config.c`:
all vendor models need the AppKey; SIG Config Server/Client (0x0000, 0x0001)
use the DevKey and are exempt; every other SIG model needs the AppKey. -/
def model_needs_appkey_binding (model_id company_id : Nat) : Bool :=
  if company_id ≠ ESP_BLE_MESH_CID_NVAL then
    true
  else if model_id = 0x0000 ∨ model_id = 0x0001 then
    false
  else
    true

/-! ## Sensor MPID decoding (`mesh_sensor_client_cb` in `ble_mesh_callbacks.c`) -/

/-- Result of decoding one MPID header: property id, data length, remaining bytes. -/
structure MpidHeader where
  property_id : Nat
  data_length : Nat
  rest : List Nat
deriving Repr, DecidableEq

/-- The MPID header decode of `mesh_sensor_client_cb`: peek the first byte,
bit 0 selects Format A (0, two-byte header) or Format B (1, three-byte header).
Format A: `mpid = (data[1] << 8) | data[0]`, length field = bits 1-4
(`0xF` means variable, length reported 0), property id = bits 5-15.
Format B: length field = bits 1-7 of byte 0 (`0x7F` variable, reported 0),
property id = bytes 1-2 little-endian.  A short buffer stops the decode
(`none`). -/
def decode_mpid (buf : List Nat) : Option MpidHeader :=
  match buf with
  | [] => none
  | b0 :: tail =>
    if b0 % 2 = 0 then
      -- Format A, needs two bytes
      match tail with
      | b1 :: rest =>
        let mpid := (b1 <<< 8) ||| b0
        let length_field := (mpid >>> 1) &&& 0x0F
        let property_id := (mpid >>> 5) &&& 0x7FF
        let data_length := if length_field = 0x0F then 0 else length_field + 1
        some ⟨property_id, data_length, rest⟩
      | [] => none
    else
      -- Format B, needs three bytes
      match tail with
      | b1 :: b2 :: rest =>
        let length_field := (b0 >>> 1) &&& 0x7F
        let property_id := (b2 <<< 8) ||| b1
        let data_length := if length_field = 0x7F then 0 else length_field
        some ⟨property_id, data_length, rest⟩
      | _ => none

/-! ## Node and registry data model (`ble_mesh_storage.c` / `ble_mesh_storage.h`) -/

/-- `node_model_info_t`: one discovered model with its three completion flags. -/
structure NodeModel where
  model_id : Nat
  company_id : Nat
  is_vendor : Bool
  appkey_bound : Bool
  pub_configured : Bool
  sub_configured : Bool
deriving Repr, DecidableEq

/-- A freshly discovered model: ids set, every completion flag cleared. -/
def NodeModel.fresh (model_id company_id : Nat) (is_vendor : Bool) : NodeModel :=
  ⟨model_id, company_id, is_vendor, false, false, false⟩

/-- `mesh_node_info_t`: one registry entry.  `model_count` is `models.length`. -/
structure MeshNodeInfo where
  uuid : List Nat
  unicast : Nat
  elem_num : Nat
  onoff_state : Nat
  models : List NodeModel
  next_model_to_bind : Nat
  next_model_to_pub : Nat
  next_model_to_sub : Nat
  composition_received : Bool
  appkey_added : Bool
deriving Repr, DecidableEq

/-- A zeroed `mesh_node_info_t` slot, as left by `memset` in `mesh_storage_init`. -/
def MeshNodeInfo.zeroed : MeshNodeInfo :=
  ⟨List.replicate 16 0, 0, 0, 0, [], 0, 0, 0, false, false⟩

/-- `MESH_STORAGE_MAX_NODES`. -/
def MESH_STORAGE_MAX_NODES : Nat := 10

/-- Error results of the storage API (`esp_err_t` values actually returned). -/
inductive EspErr where
  | ok
  | invalidArg   -- ESP_ERR_INVALID_ARG
  | noMem        -- ESP_ERR_NO_MEM
  | notFound     -- ESP_ERR_NOT_FOUND
deriving Repr, DecidableEq

/-- The registry: the live prefix `nodes[0..node_count)` of the static array.
`node_count` is `nodes.length`. -/
structure Registry where
  nodes : List MeshNodeInfo
deriving Repr, DecidableEq

/-- `mesh_storage_init`: clears the array and resets the counter. -/
def mesh_storage_init : Registry := ⟨[]⟩

/-- `mesh_storage_get_node_count`. -/
def mesh_storage_get_node_count (reg : Registry) : Nat := reg.nodes.length

/-- Overwrite the three mutable fields of an entry, as the update branch of
`mesh_storage_add_node` does. -/
def overwriteNodeFields (n : MeshNodeInfo) (unicast elem_num onoff_state : Nat) :
    MeshNodeInfo :=
  { n with unicast := unicast, elem_num := elem_num, onoff_state := onoff_state }

/-- The duplicate-uuid scan of `mesh_storage_add_node`: overwrite the first
entry whose 16-byte uuid equals the given one (`memcmp == 0`); `none` when no
entry matches. -/
def addUpdateScan (nodes : List MeshNodeInfo) (uuid : List Nat)
    (unicast elem_num onoff_state : Nat) : Option (List MeshNodeInfo) :=
  match nodes with
  | [] => none
  | n :: rest =>
    if n.uuid = uuid then
      some (overwriteNodeFields n unicast elem_num onoff_state :: rest)
    else
      match addUpdateScan rest uuid unicast elem_num onoff_state with
      | some rest' => some (n :: rest')
      | none => none

/-- `mesh_storage_add_node`.  The argument `uuid?` is `none` for a NULL
pointer.  Mirrors the source order exactly: NULL check, then the capacity
check, then the duplicate-uuid scan (update in place), then append. -/
def mesh_storage_add_node (reg : Registry) (uuid? : Option (List Nat))
    (unicast elem_num onoff_state : Nat) : Registry × EspErr :=
  match uuid? with
  | none => (reg, .invalidArg)
  | some uuid =>
    if reg.nodes.length ≥ MESH_STORAGE_MAX_NODES then
      (reg, .noMem)
    else
      match addUpdateScan reg.nodes uuid unicast elem_num onoff_state with
      | some nodes' => (⟨nodes'⟩, .ok)
      | none =>
        (⟨reg.nodes ++ [{ MeshNodeInfo.zeroed with
            uuid := uuid, unicast := unicast,
            elem_num := elem_num, onoff_state := onoff_state }]⟩, .ok)

/-- `mesh_storage_get_node`: linear scan by unicast address; copies the entry
out without modifying the registry.  `none` models ESP_ERR_NOT_FOUND. -/
def mesh_storage_get_node (reg : Registry) (unicast : Nat) : Option MeshNodeInfo :=
  reg.nodes.find? (fun n => n.unicast = unicast)

/-- The linear scan of `mesh_storage_update_node`: replace the first entry
with the given unicast address by `info`. -/
def updateScan (nodes : List MeshNodeInfo) (unicast : Nat) (info : MeshNodeInfo) :
    Option (List MeshNodeInfo) :=
  match nodes with
  | [] => none
  | n :: rest =>
    if n.unicast = unicast then
      some (info :: rest)
    else
      match updateScan rest unicast info with
      | some rest' => some (n :: rest')
      | none => none

/-- `mesh_storage_update_node`: replace the first entry with the given unicast
address by `info` (`none` models a NULL info pointer). -/
def mesh_storage_update_node (reg : Registry) (unicast : Nat)
    (info? : Option MeshNodeInfo) : Registry × EspErr :=
  match info? with
  | none => (reg, .invalidArg)
  | some info =>
    match updateScan reg.nodes unicast info with
    | some nodes' => (⟨nodes'⟩, .ok)
    | none => (reg, .notFound)

/-! ## Composition data parser (`parse_composition_data` in `ble_mesh_callbacks.c`) -/

/-- `discovered_model_t`. -/
structure DiscoveredModel where
  model_id : Nat
  company_id : Nat
  is_vendor : Bool
deriving Repr, DecidableEq

/-- `MAX_DISCOVERED_MODELS`. -/
def MAX_DISCOVERED_MODELS : Nat := 16

/-- `net_buf_simple_pull_le16`: two bytes, little-endian. -/
def le16 (b0 b1 : Nat) : Nat := (b0 % 256) ||| ((b1 % 256) <<< 8)

/-- The SIG-model loop of `parse_composition_data`:
`for (i = 0; i < num_sig && model_count < max_models && buf->len >= 2; i++)`,
appending one standard-tagged descriptor per two-byte id.  The `buf->len >= 2`
guard is the two-byte buffer pattern. -/
def parseSigModels : Nat → List Nat → List DiscoveredModel → Nat →
    List DiscoveredModel × List Nat
  | 0, buf, acc, _ => (acc, buf)
  | i + 1, b0 :: b1 :: rest, acc, maxModels =>
    if acc.length < maxModels then
      parseSigModels i rest
        (acc ++ [⟨le16 b0 b1, ESP_BLE_MESH_CID_NVAL, false⟩]) maxModels
    else (acc, b0 :: b1 :: rest)
  | _ + 1, buf, acc, _ => (acc, buf)

/-- The vendor-model loop of `parse_composition_data`: four bytes per model,
company id first, then model id, both little-endian.  The `buf->len >= 4`
guard is the four-byte buffer pattern. -/
def parseVndModels : Nat → List Nat → List DiscoveredModel → Nat →
    List DiscoveredModel × List Nat
  | 0, buf, acc, _ => (acc, buf)
  | i + 1, c0 :: c1 :: m0 :: m1 :: rest, acc, maxModels =>
    if acc.length < maxModels then
      parseVndModels i rest
        (acc ++ [⟨le16 m0 m1, le16 c0 c1, true⟩]) maxModels
    else (acc, c0 :: c1 :: m0 :: m1 :: rest)
  | _ + 1, buf, acc, _ => (acc, buf)

/-- The element loop of `parse_composition_data`:
`while (buf->len >= 4 && model_count < max_models)` — the length guard is the
four-byte buffer pattern; each iteration skips the 2-byte location, reads the
two counts and runs the two model loops.  `fuel` bounds the iteration count;
every iteration consumes at least 4 bytes, so any `fuel ≥ buf.length`
reproduces the C loop exactly. -/
def parseElements : Nat → List Nat → List DiscoveredModel → Nat →
    List DiscoveredModel
  | 0, _, acc, _ => acc
  | fuel + 1, _l0 :: _l1 :: ns :: nv :: rest, acc, maxModels =>
    if acc.length < maxModels then
      let (acc2, buf2) := parseSigModels (ns % 256) rest acc maxModels
      let (acc3, buf3) := parseVndModels (nv % 256) buf2 acc2 maxModels
      parseElements fuel buf3 acc3 maxModels
    else acc
  | _ + 1, _, acc, _ => acc

/-- `parse_composition_data`: buffers shorter than 10 bytes yield no models;
otherwise the 10-byte header (CID, PID, VID, CRPL, Features) is skipped and the
element loop runs. -/
def parse_composition_data (buf : List Nat) : List DiscoveredModel :=
  if buf.length < 10 then []
  else parseElements buf.length (buf.drop 10) [] MAX_DISCOVERED_MODELS

/-! ## Auto-configuration step functions (`ble_mesh_auto_config.c`)

Each step function scans `models` from its cursor.  Submitting a request
(`esp_ble_mesh_config_client_set_state`) is modelled by the oracle
`sendOk : Nat → Bool` giving the success of a submission for the model at a
given index; a failed submission advances the cursor and the scan continues,
exactly as the C error branch does.  `attempts` records every submission in
order (index, model id, company id, success flag). -/

/-- One request submission. -/
structure Attempt where
  idx : Nat
  model_id : Nat
  company_id : Nat
  ok : Bool
deriving Repr, DecidableEq

/-- Result of one step-function invocation: the updated models array, the
updated cursor, the submissions attempted, and the C return value
(`true` = a request is in flight, wait for its ack; `false` = phase
exhausted). -/
structure StepResult where
  models : List NodeModel
  cursor : Nat
  attempts : List Attempt
  started : Bool
deriving Repr, DecidableEq

/-- `bind_next_model`: skip models already bound; mark-and-skip models exempt
from AppKey binding (Config Server/Client); submit a bind request for the
first remaining model and return, or advance and continue if the submission
fails. -/
def bind_next_model (sendOk : Nat → Bool) (models : List NodeModel)
    (cursor : Nat) : StepResult :=
  if h : cursor < models.length then
    let model := models.get ⟨cursor, h⟩
    if model.appkey_bound then
      bind_next_model sendOk models (cursor + 1)
    else if ¬ model_needs_appkey_binding model.model_id model.company_id then
      bind_next_model sendOk
        (models.set cursor { model with appkey_bound := true }) (cursor + 1)
    else if sendOk cursor then
      ⟨models, cursor, [⟨cursor, model.model_id, model.company_id, true⟩], true⟩
    else
      let r := bind_next_model sendOk models (cursor + 1)
      { r with attempts := ⟨cursor, model.model_id, model.company_id, false⟩ :: r.attempts }
  else
    ⟨models, cursor, [], false⟩
termination_by models.length - cursor
decreasing_by
  all_goals ((try simp only [List.length_set]); omega)

/-- `configure_next_publication`: skip models already configured; mark-and-skip
models that do not support publication; submit a publish-set request for the
first remaining model and return, or advance and continue on failure. -/
def configure_next_publication (sendOk : Nat → Bool) (models : List NodeModel)
    (cursor : Nat) : StepResult :=
  if h : cursor < models.length then
    let model := models.get ⟨cursor, h⟩
    if model.pub_configured then
      configure_next_publication sendOk models (cursor + 1)
    else if ¬ model_supports_publication model.model_id model.company_id then
      configure_next_publication sendOk
        (models.set cursor { model with pub_configured := true }) (cursor + 1)
    else if sendOk cursor then
      ⟨models, cursor, [⟨cursor, model.model_id, model.company_id, true⟩], true⟩
    else
      let r := configure_next_publication sendOk models (cursor + 1)
      { r with attempts := ⟨cursor, model.model_id, model.company_id, false⟩ :: r.attempts }
  else
    ⟨models, cursor, [], false⟩
termination_by models.length - cursor
decreasing_by
  all_goals ((try simp only [List.length_set]); omega)

/-- `subscribe_next_model`: skip models already subscribed; mark-and-skip
models that do not support subscription; submit a subscribe-add request for
the first remaining model and return, or advance and continue on failure. -/
def subscribe_next_model (sendOk : Nat → Bool) (models : List NodeModel)
    (cursor : Nat) : StepResult :=
  if h : cursor < models.length then
    let model := models.get ⟨cursor, h⟩
    if model.sub_configured then
      subscribe_next_model sendOk models (cursor + 1)
    else if ¬ model_supports_subscription model.model_id model.company_id then
      subscribe_next_model sendOk
        (models.set cursor { model with sub_configured := true }) (cursor + 1)
    else if sendOk cursor then
      ⟨models, cursor, [⟨cursor, model.model_id, model.company_id, true⟩], true⟩
    else
      let r := subscribe_next_model sendOk models (cursor + 1)
      { r with attempts := ⟨cursor, model.model_id, model.company_id, false⟩ :: r.attempts }
  else
    ⟨models, cursor, [], false⟩
termination_by models.length - cursor
decreasing_by
  all_goals ((try simp only [List.length_set]); omega)

/-! ## Acknowledgment handling (`mesh_config_client_cb` in `ble_mesh_callbacks.c`)

On a MODEL_APP_BIND (resp. MODEL_PUB_SET) status, the callback marks the first
stored model whose id and company id match the acknowledged ones, increments
the phase cursor, and re-invokes the step function. -/

/-- Mark the first model matching (model id, company id) as AppKey-bound —
the `for`/`break` loop of the MODEL_APP_BIND ack handler. -/
def markFirstBound (models : List NodeModel) (mid cid : Nat) : List NodeModel :=
  match models with
  | [] => []
  | m :: rest =>
    if m.model_id = mid ∧ m.company_id = cid then
      { m with appkey_bound := true } :: rest
    else
      m :: markFirstBound rest mid cid

/-- Mark the first model matching (model id, company id) as
publication-configured — the MODEL_PUB_SET ack handler. -/
def markFirstPub (models : List NodeModel) (mid cid : Nat) : List NodeModel :=
  match models with
  | [] => []
  | m :: rest =>
    if m.model_id = mid ∧ m.company_id = cid then
      { m with pub_configured := true } :: rest
    else
      m :: markFirstPub rest mid cid

/-- Mark the first model matching (model id, company id) as
subscription-configured (spec §4.3 subscribe-acknowledged transition,
mirroring the bind/publish ack handlers of `ble_mesh_callbacks.c`). -/
def markFirstSub (models : List NodeModel) (mid cid : Nat) : List NodeModel :=
  match models with
  | [] => []
  | m :: rest =>
    if m.model_id = mid ∧ m.company_id = cid then
      { m with sub_configured := true } :: rest
    else
      m :: markFirstSub rest mid cid

/-- The bind phase driven one acknowledgment at a time: invoke
`bind_next_model`; while it reports a request in flight, deliver that
request's ack (mark the first matching model bound, increment the cursor —
exactly the MODEL_APP_BIND branch of `mesh_config_client_cb`) and re-invoke.
Returns all submissions, the final models array and the final cursor.  `fuel`
bounds the number of acknowledgments processed. -/
def runBindPhase (sendOk : Nat → Bool) :
    Nat → List NodeModel → Nat → List Attempt × List NodeModel × Nat
  | 0, models, cursor => ([], models, cursor)
  | fuel + 1, models, cursor =>
    let r := bind_next_model sendOk models cursor
    if r.started then
      match r.attempts.getLast? with
      | some a =>
        let models2 := markFirstBound r.models a.model_id a.company_id
        let (rest, finalModels, finalCursor) :=
          runBindPhase sendOk fuel models2 (r.cursor + 1)
        (r.attempts ++ rest, finalModels, finalCursor)
      | none => (r.attempts, r.models, r.cursor)
    else
      (r.attempts, r.models, r.cursor)

/-! ## Mesh-to-MQTT bridge (`mesh_mqtt_bridge.c`)

`wifi_mqtt_publish` is modelled by collecting the published records into a
list; formatting to JSON text is kept structural.  The C scales `accel_x` by
the float `0.1f` when printing; the record stores the raw signed byte, whose
printed value is that integer in tenths of g.  The gyro scaling by 10 is
integer arithmetic and is applied exactly. -/

/-- `VENDOR_OP_IMU_DATA`. -/
def VENDOR_OP_IMU_DATA : Nat := 0xC00001

/-- `SENSOR_PROPERTY_HEART_RATE`. -/
def SENSOR_PROPERTY_HEART_RATE : Nat := 0x2A37

/-- Sign-extend one byte, as reading a `int8_t` field does. -/
def int8OfByte (b : Nat) : Int :=
  if b % 256 < 128 then (b % 256 : Int) else (b % 256 : Int) - 256

/-- The decoded IMU record published by `handle_imu_message`: node address,
little-endian 16-bit timestamp, raw accel bytes (tenths of g) and gyro values
multiplied by 10 (degrees per second). -/
structure ImuPayload where
  node : Nat
  time : Nat
  accel_x_tenths : Int
  accel_y_tenths : Int
  accel_z_tenths : Int
  gyro_x : Int
  gyro_y : Int
  gyro_z : Int
deriving Repr, DecidableEq

/-- One record published to the external bus: topic `{prefix}/{type}/{addr}`
with a structured payload. -/
inductive Published where
  | imu (payload : ImuPayload)
  | heartrate (node : Nat) (bpm : Int)
deriving Repr, DecidableEq

/-- `handle_imu_message`: reject any payload whose length is not exactly 8
(no partial decode, nothing published); otherwise unpack the packed record
and publish exactly one IMU message. -/
def handle_imu_message (src_addr : Nat) (data : List Nat) : List Published :=
  if data.length ≠ 8 then
    []
  else
    match data with
    | [b0, b1, ax, ay, az, gx, gy, gz] =>
      [.imu ⟨src_addr, le16 b0 b1,
             int8OfByte ax, int8OfByte ay, int8OfByte az,
             int8OfByte gx * 10, int8OfByte gy * 10, int8OfByte gz * 10⟩]
    | _ => []

/-- `bridge_config_t`; `mqtt_topic_prefix` is `none` for a NULL pointer. -/
structure BridgeConfig where
  mqtt_topic_prefix : Option (List Nat)
  mesh_net_idx : Nat
  mesh_app_idx : Nat
deriving Repr, DecidableEq

/-- The bridge's static state: `g_bridge_config` and `g_bridge_initialized`. -/
structure BridgeState where
  config : BridgeConfig
  initialized : Bool
deriving Repr, DecidableEq

/-- The bridge state at program start: zeroed statics, not initialized. -/
def initialBridgeState : BridgeState :=
  ⟨⟨none, 0, 0⟩, false⟩

/-- `mesh_mqtt_bridge_init`: NULL config or NULL topic prefix is rejected with
ESP_ERR_INVALID_ARG and the state is left untouched; otherwise the config is
stored and `g_bridge_initialized` becomes true. -/
def mesh_mqtt_bridge_init (st : BridgeState) (config? : Option BridgeConfig) :
    BridgeState × EspErr :=
  match config? with
  | none => (st, .invalidArg)
  | some config =>
    match config.mqtt_topic_prefix with
    | none => (st, .invalidArg)
    | some _ => ({ st with config := config, initialized := true }, .ok)

/-- `provisioner_sensor_msg_handler` (bridge override): drop everything until
the bridge is initialized; afterwards route by property id (only heart rate is
handled, other properties are dropped). -/
def provisioner_sensor_msg_handler (st : BridgeState) (src_addr property_id : Nat)
    (value : Int) : List Published :=
  if ¬ st.initialized then
    []
  else if property_id = SENSOR_PROPERTY_HEART_RATE then
    [.heartrate src_addr value]
  else
    []

/-- `provisioner_vendor_msg_handler` (bridge override): drop everything until
the bridge is initialized; afterwards look the opcode up in `message_router`
(only `VENDOR_OP_IMU_DATA` is routed; unknown opcodes are dropped). -/
def provisioner_vendor_msg_handler (st : BridgeState) (src_addr opcode : Nat)
    (data : List Nat) : List Published :=
  if ¬ st.initialized then
    []
  else if opcode = VENDOR_OP_IMU_DATA then
    handle_imu_message src_addr data
  else
    []

/-! ## Subscribe phase dispatcher

`subscribe_next_model` and its header declaration are in `src/`
(`ble_mesh_auto_config.c/h`), but the config-client dispatcher shipped in
`src/` (`ble_mesh_callbacks.c`) predates the subscribe phase: it has no
MODEL_SUB_ADD acknowledgment branch and no ready event.  The dispatcher below
is therefore modelled from the spec (§4.3), mirroring the shape of the bind
and publish ack branches that are in `src/`. -/

/-- The per-node state of the subscribe phase plus the terminal `Ready`
state and the count of ready events emitted to the collaborator. -/
structure SubPhaseState where
  models : List NodeModel
  cursor : Nat
  ready : Bool
  readyEvents : Nat
deriving Repr, DecidableEq

/-- Modelled from the spec: invoking the subscribe step.  If the step reports
exhaustion (`started = false`), transition to `Ready` and emit exactly one
ready event; otherwise stay in the subscribe phase awaiting the ack. -/
def subscribe_kick (sendOk : Nat → Bool) (st : SubPhaseState) :
    SubPhaseState × List Attempt :=
  let r := subscribe_next_model sendOk st.models st.cursor
  if r.started then
    ({ st with models := r.models, cursor := r.cursor }, r.attempts)
  else
    let st2 : SubPhaseState :=
      { st with models := r.models, cursor := r.cursor, ready := true,
                readyEvents := st.readyEvents + 1 }
    (st2, r.attempts)

/-- Modelled from the spec: the MODEL_SUB_ADD acknowledgment branch missing
from the `src/` dispatcher.  `Ready` is terminal — a node already `Ready`
processes no further configuration step.  Otherwise mark the first matching
model subscribe-configured, advance the cursor and re-invoke the step,
exactly as the bind and publish ack branches in `src/` do for their phases. -/
def subscribe_ack (sendOk : Nat → Bool) (st : SubPhaseState) (mid cid : Nat) :
    SubPhaseState × List Attempt :=
  if st.ready then
    (st, [])
  else
    subscribe_kick sendOk
      { st with models := markFirstSub st.models mid cid, cursor := st.cursor + 1 }

/-- The subscribe phase driven one acknowledgment at a time, from entering
`Subscribing` (first kick) to `Ready`: while a subscribe request is in
flight, deliver its ack and re-invoke.  Returns the final state and all
submissions.  `fuel` bounds the number of acknowledgments processed. -/
def runSubscribePhase (sendOk : Nat → Bool) :
    Nat → SubPhaseState → SubPhaseState × List Attempt
  | 0, st => (st, [])
  | fuel + 1, st =>
    let r := subscribe_next_model sendOk st.models st.cursor
    if r.started then
      match r.attempts.getLast? with
      | some a =>
        let st2 : SubPhaseState :=
          { st with models := markFirstSub r.models a.model_id a.company_id,
                    cursor := r.cursor + 1 }
        let (stF, rest) := runSubscribePhase sendOk fuel st2
        (stF, r.attempts ++ rest)
      | none => ({ st with models := r.models, cursor := r.cursor }, r.attempts)
    else
      let stR : SubPhaseState :=
        { st with models := r.models, cursor := r.cursor, ready := true,
                  readyEvents := st.readyEvents + 1 }
      (stR, r.attempts)

/-! ## Supporting lemmas -/

/-- The update scan of `mesh_storage_add_node` preserves the entry count. -/
theorem addUpdateScan_length (nodes : List MeshNodeInfo) (uuid : List Nat)
    (unicast elem_num onoff_state : Nat) (l : List MeshNodeInfo)
    (h : addUpdateScan nodes uuid unicast elem_num onoff_state = some l) :
    l.length = nodes.length := by
  induction nodes generalizing l with
  | nil => simp [addUpdateScan] at h
  | cons n rest ih =>
    rw [addUpdateScan] at h
    split at h
    · cases h; simp
    · revert h
      split
      · intro h
        rename_i rest2 hrest
        cases h
        simpa using ih rest2 hrest
      · intro h; cases h

/-- The update scan finds nothing exactly when no stored uuid matches. -/
theorem addUpdateScan_eq_none_iff (nodes : List MeshNodeInfo) (uuid : List Nat)
    (unicast elem_num onoff_state : Nat) :
    addUpdateScan nodes uuid unicast elem_num onoff_state = none ↔
      ∀ n ∈ nodes, n.uuid ≠ uuid := by
  induction nodes with
  | nil => simp [addUpdateScan]
  | cons n rest ih =>
    rw [addUpdateScan]
    by_cases hn : n.uuid = uuid
    · simp only [if_pos hn]
      constructor
      · intro h; cases h
      · intro h; exact absurd hn (h n (by simp))
    · simp only [if_neg hn]
      rcases hrec : addUpdateScan rest uuid unicast elem_num onoff_state with _ | rest2
      · constructor
        · intro _ m hm
          rcases List.mem_cons.mp hm with rfl | hm2
          · exact hn
          · exact (ih.mp hrec) m hm2
        · intro _; rfl
      · constructor
        · intro h; cases h
        · intro h
          have hnone : addUpdateScan rest uuid unicast elem_num onoff_state = none :=
            ih.mpr (fun m hm => h m (by simp [hm]))
          rw [hrec] at hnone; cases hnone

/-- The replace scan of `mesh_storage_update_node` preserves the entry count. -/
theorem updateScan_length (nodes : List MeshNodeInfo) (unicast : Nat)
    (info : MeshNodeInfo) (l : List MeshNodeInfo)
    (h : updateScan nodes unicast info = some l) :
    l.length = nodes.length := by
  induction nodes generalizing l with
  | nil => simp [updateScan] at h
  | cons n rest ih =>
    rw [updateScan] at h
    split at h
    · cases h; simp
    · revert h
      split
      · intro h
        rename_i rest2 hrest
        cases h
        simpa using ih rest2 hrest
      · intro h; cases h

/-! ## Claim theorems -/

/-- C3 counterexample: as stated, the claim is false on the code — the bytes
`[0x72, 0x02]` do select Format A, but the decode yields property id `0x0013`
and data length `10`, not property id `0x004F` and length `2`.  (The wire
bytes for property `0x004F` with length 2 are `[0xE2, 0x09]`.) -/
theorem mpid_format_a_spec_bytes_counterexample :
    0x72 % 2 = 0 ∧
    decode_mpid [0x72, 0x02] ≠ some ⟨0x004F, 2, []⟩ := by
  decide

/-- C3 (amended): a property-tagged scalar record beginning with bytes
`[0x72, 0x02]` selects Format A (low bit of the first byte is 0) and decodes
to property id `0x0013` and data length `10`. -/
theorem mpid_format_a_decode_of_72_02 :
    0x72 % 2 = 0 ∧
    decode_mpid [0x72, 0x02] = some ⟨0x0013, 10, []⟩ := by
  decide

/-- C4 counterexample: the standard publish-eligible catalog is not all
even-valued — id `0x1201` (Time Setup Server) is in the set and is odd
(`0x1301` and `0x1303` likewise). -/
theorem publish_eligibility_odd_id_counterexample :
    model_supports_publication 0x1201 ESP_BLE_MESH_CID_NVAL = true ∧
    0x1201 % 2 = 1 := by
  decide

/-- C4 (amended): publish-eligibility is a pure function of
(model id, company tag): true for every vendor-tagged model, and for
standard-tagged models true exactly on the fixed server-type catalog set
(which contains both even and odd ids); every other standard model is
ineligible. -/
theorem publish_eligibility_characterization :
    ∀ model_id company_id : Nat,
      model_supports_publication model_id company_id =
        (decide (company_id ≠ ESP_BLE_MESH_CID_NVAL) ||
         sig_publication_model_ids.contains model_id) ∧
      (company_id ≠ ESP_BLE_MESH_CID_NVAL →
        model_supports_publication model_id company_id = true) ∧
      (company_id = ESP_BLE_MESH_CID_NVAL →
        (model_supports_publication model_id company_id = true ↔
          model_id ∈ sig_publication_model_ids)) := by
  intro model_id company_id
  refine ⟨?_, ?_, ?_⟩
  · by_cases h : company_id = ESP_BLE_MESH_CID_NVAL <;>
      simp [model_supports_publication, h]
  · intro h; simp [model_supports_publication, h]
  · intro h; simp [model_supports_publication, h]

/-- C2 (code bug): `mesh_storage_add_node` checks capacity before the
duplicate-identifier scan, so re-adding an identifier that is already stored
in a full 10-entry registry returns CapacityError (`ESP_ERR_NO_MEM`) and
changes nothing, while the claim, spec §4.1 and the function's own BEHAVIOR
comment ("If node with same UUID exists → Update its information") require
Ok with an in-place overwrite.  Evaluated at the failing input: a registry
filled with 10 distinct identifiers, re-adding the first identifier with a
new address. -/
theorem storage_add_full_registry_update_refused :
    (let full : Registry := (List.range 10).foldl
      (fun r k =>
        (mesh_storage_add_node r (some (List.replicate 15 0 ++ [k])) (k + 1) 1 0).1)
      mesh_storage_init
     mesh_storage_get_node_count full = 10 ∧
     (∃ n ∈ full.nodes, n.uuid = List.replicate 15 0 ++ [0]) ∧
     mesh_storage_add_node full (some (List.replicate 15 0 ++ [0])) 99 1 0 =
       (full, .noMem)) := by
  decide

/-- C8: `handle_imu_message` rejects every payload whose length is not
exactly 8 bytes, publishing nothing; an exactly-8-byte payload is decoded as
a 2-byte little-endian timestamp plus six signed bytes and published once. -/
theorem imu_length_gate (src_addr : Nat) (data : List Nat)
    (b0 b1 ax ay az gx gy gz : Nat) :
    (data.length ≠ 8 → handle_imu_message src_addr data = []) ∧
    (handle_imu_message src_addr [b0, b1, ax, ay, az, gx, gy, gz] =
      [.imu ⟨src_addr, le16 b0 b1,
             int8OfByte ax, int8OfByte ay, int8OfByte az,
             int8OfByte gx * 10, int8OfByte gy * 10, int8OfByte gz * 10⟩]) := by
  constructor
  · intro h
    rw [handle_imu_message.eq_def]
    rw [if_pos h]
  · rw [handle_imu_message.eq_def]
    norm_num

/-- C8 witness: a 3-byte payload is rejected; an 8-byte payload decodes. -/
theorem imu_length_gate_witness :
    handle_imu_message 5 [1, 2, 3] = [] ∧
    handle_imu_message 5 [1, 0, 10, 246, 20, 5, 251, 1] =
      [.imu ⟨5, 1, 10, -10, 20, 50, -50, 10⟩] := by
  refine ⟨(imu_length_gate 5 [1, 2, 3] 0 0 0 0 0 0 0 0).1 (by decide), ?_⟩
  have h := (imu_length_gate 5 [] 1 0 10 246 20 5 251 1).2
  rw [h]
  decide

/-- C10: until `mesh_mqtt_bridge_init` succeeds, both bridge handlers drop
every inbound message — for every source address, opcode, property id,
payload and value nothing is published; the initial bridge state is
uninitialized and a failed init (NULL config or NULL topic prefix) leaves it
uninitialized. -/
theorem bridge_uninitialized_drops_all (st : BridgeState)
    (src_addr opcode property_id : Nat) (data : List Nat) (value : Int)
    (config : BridgeConfig) :
    (st.initialized = false →
      provisioner_sensor_msg_handler st src_addr property_id value = [] ∧
      provisioner_vendor_msg_handler st src_addr opcode data = []) ∧
    initialBridgeState.initialized = false ∧
    (mesh_mqtt_bridge_init st none = (st, .invalidArg)) ∧
    (config.mqtt_topic_prefix = none →
      mesh_mqtt_bridge_init st (some config) = (st, .invalidArg)) := by
  refine ⟨?_, rfl, rfl, ?_⟩
  · intro h
    constructor <;> simp [provisioner_sensor_msg_handler,
      provisioner_vendor_msg_handler, h]
  · intro h
    simp [mesh_mqtt_bridge_init, h]

/-- C10 witness: the fresh bridge drops a heart-rate sensor message and an
IMU vendor message. -/
theorem bridge_uninitialized_drops_all_witness :
    provisioner_sensor_msg_handler initialBridgeState 7 SENSOR_PROPERTY_HEART_RATE 60 = [] ∧
    provisioner_vendor_msg_handler initialBridgeState 7 VENDOR_OP_IMU_DATA
      [1, 0, 10, 246, 20, 5, 251, 1] = [] := by
  exact (bridge_uninitialized_drops_all initialBridgeState 7 VENDOR_OP_IMU_DATA
    SENSOR_PROPERTY_HEART_RATE [1, 0, 10, 246, 20, 5, 251, 1] 60
    ⟨none, 0, 0⟩).1 rfl

/-- C9: every registry operation keeps `count` within 0..10; `count` grows
(by exactly 1) only when `addOrUpdate` appends a previously unknown
identifier with space left, `init` resets it to 0, a NULL-uuid add and a
full-registry add leave the registry untouched, and `update` (found, not
found, or NULL info) never changes the entry count.  `getByAddress` is
embedded as a pure read (`mesh_storage_get_node`), which cannot change the
registry. -/
theorem registry_count_invariant (reg : Registry) (uuid : List Nat)
    (unicast elem_num onoff_state addr : Nat) (info : MeshNodeInfo)
    (hcap : mesh_storage_get_node_count reg ≤ MESH_STORAGE_MAX_NODES) :
    mesh_storage_get_node_count mesh_storage_init = 0 ∧
    (let reg2 := (mesh_storage_add_node reg (some uuid) unicast elem_num onoff_state).1
     mesh_storage_get_node_count reg2 ≤ MESH_STORAGE_MAX_NODES ∧
     (if mesh_storage_get_node_count reg < MESH_STORAGE_MAX_NODES ∧
         (∀ n ∈ reg.nodes, n.uuid ≠ uuid) then
        mesh_storage_get_node_count reg2 = mesh_storage_get_node_count reg + 1
      else
        mesh_storage_get_node_count reg2 = mesh_storage_get_node_count reg)) ∧
    (mesh_storage_add_node reg none unicast elem_num onoff_state).1 = reg ∧
    mesh_storage_get_node_count (mesh_storage_update_node reg addr (some info)).1 =
      mesh_storage_get_node_count reg ∧
    mesh_storage_get_node_count (mesh_storage_update_node reg addr none).1 =
      mesh_storage_get_node_count reg := by
  refine ⟨rfl, ⟨?_, ?_⟩, rfl, ?_, rfl⟩
  · -- the add result stays within capacity
    rw [mesh_storage_add_node]
    by_cases hfull : reg.nodes.length ≥ MESH_STORAGE_MAX_NODES
    · simp only [if_pos hfull]; exact hcap
    · simp only [if_neg hfull]
      rcases hscan : addUpdateScan reg.nodes uuid unicast elem_num onoff_state
        with _ | nodes2
      · have hlt := Nat.lt_of_not_ge hfull
        simp only [mesh_storage_get_node_count, MESH_STORAGE_MAX_NODES] at hlt ⊢
        simp only [List.length_append, List.length_cons, List.length_nil]
        omega
      · have hlen := addUpdateScan_length reg.nodes uuid unicast elem_num
          onoff_state nodes2 hscan
        simpa [mesh_storage_get_node_count, hlen] using hcap
  · -- the count changes exactly on a fresh identifier with space left
    rw [mesh_storage_add_node]
    by_cases hfull : reg.nodes.length ≥ MESH_STORAGE_MAX_NODES
    · have hnotlt : ¬ mesh_storage_get_node_count reg < MESH_STORAGE_MAX_NODES :=
        Nat.not_lt.mpr hfull
      simp only [if_pos hfull]
      rw [if_neg (fun hco => hnotlt hco.1)]
      trivial
    · simp only [if_neg hfull]
      rcases hscan : addUpdateScan reg.nodes uuid unicast elem_num onoff_state
        with _ | nodes2
      · have hfresh : ∀ n ∈ reg.nodes, n.uuid ≠ uuid :=
          (addUpdateScan_eq_none_iff reg.nodes uuid unicast elem_num onoff_state).mp
            hscan
        have hlt : mesh_storage_get_node_count reg < MESH_STORAGE_MAX_NODES :=
          Nat.lt_of_not_ge hfull
        rw [if_pos ⟨hlt, hfresh⟩]
        simp [mesh_storage_get_node_count]
      · have hlen := addUpdateScan_length reg.nodes uuid unicast elem_num
          onoff_state nodes2 hscan
        have hstale : ¬ (∀ n ∈ reg.nodes, n.uuid ≠ uuid) := by
          intro hall
          have : addUpdateScan reg.nodes uuid unicast elem_num onoff_state = none :=
            (addUpdateScan_eq_none_iff reg.nodes uuid unicast elem_num
              onoff_state).mpr hall
          rw [hscan] at this; cases this
        rw [if_neg (fun hco => hstale hco.2)]
        simp [mesh_storage_get_node_count, hlen]
  · -- update (entry found or not) preserves the count
    rw [mesh_storage_update_node]
    rcases hscan : updateScan reg.nodes addr info with _ | nodes2
    · rfl
    · have hlen := updateScan_length reg.nodes addr info nodes2 hscan
      simp [mesh_storage_get_node_count, hlen]

/-- C9 witness: a two-entry registry — adding a fresh identifier grows the
count to 3, all operations stay within capacity, and an update leaves the
count at 2. -/
theorem registry_count_invariant_witness :
    (let reg : Registry :=
      ⟨[{ MeshNodeInfo.zeroed with uuid := List.replicate 16 1, unicast := 1 },
        { MeshNodeInfo.zeroed with uuid := List.replicate 16 2, unicast := 2 }]⟩
     mesh_storage_get_node_count
       (mesh_storage_add_node reg (some (List.replicate 16 3)) 3 1 0).1 = 3 ∧
     mesh_storage_get_node_count
       (mesh_storage_update_node reg 2 (some MeshNodeInfo.zeroed)).1 = 2) := by
  have h := registry_count_invariant
    ⟨[{ MeshNodeInfo.zeroed with uuid := List.replicate 16 1, unicast := 1 },
      { MeshNodeInfo.zeroed with uuid := List.replicate 16 2, unicast := 2 }]⟩
    (List.replicate 16 3) 3 1 0 2 MeshNodeInfo.zeroed (by decide)
  refine ⟨?_, h.2.2.2.1⟩
  have h2 := h.2.1.2
  rw [if_pos (by decide)] at h2
  exact h2

/-- The SIG-model loop consumes exactly its `2 * k` bytes and appends `k`
standard-tagged descriptors in order, provided the capacity is not hit. -/
theorem parseSigModels_exact (sigs : List (Nat × Nat)) (rest : List Nat)
    (acc : List DiscoveredModel) (maxModels : Nat)
    (hcap : acc.length + sigs.length ≤ maxModels) :
    parseSigModels sigs.length ((sigs.flatMap fun p => [p.1, p.2]) ++ rest)
      acc maxModels =
    (acc ++ sigs.map fun p => ⟨le16 p.1 p.2, ESP_BLE_MESH_CID_NVAL, false⟩, rest) := by
  induction sigs generalizing acc with
  | nil => simp [parseSigModels]
  | cons p tl ih =>
    simp only [List.flatMap_cons, List.cons_append, List.length_cons,
      List.append_assoc, List.nil_append]
    rw [parseSigModels]
    rw [if_pos (by simp only [List.length_cons] at hcap; omega)]
    have := ih (acc ++ [⟨le16 p.1 p.2, ESP_BLE_MESH_CID_NVAL, false⟩])
      (by simp at hcap ⊢; omega)
    simp only [List.append_assoc] at this ⊢
    rw [this]
    simp

/-- The vendor-model loop consumes exactly its `4 * m` bytes and appends `m`
vendor-tagged descriptors in order, provided the capacity is not hit. -/
theorem parseVndModels_exact (vnds : List ((Nat × Nat) × Nat × Nat))
    (rest : List Nat) (acc : List DiscoveredModel) (maxModels : Nat)
    (hcap : acc.length + vnds.length ≤ maxModels) :
    parseVndModels vnds.length
      ((vnds.flatMap fun q => [q.1.1, q.1.2, q.2.1, q.2.2]) ++ rest)
      acc maxModels =
    (acc ++ vnds.map fun q => ⟨le16 q.2.1 q.2.2, le16 q.1.1 q.1.2, true⟩, rest) := by
  induction vnds generalizing acc with
  | nil => simp [parseVndModels]
  | cons q tl ih =>
    simp only [List.flatMap_cons, List.cons_append, List.length_cons,
      List.append_assoc, List.nil_append]
    rw [parseVndModels]
    rw [if_pos (by simp only [List.length_cons] at hcap; omega)]
    have := ih (acc ++ [⟨le16 q.2.1 q.2.2, le16 q.1.1 q.1.2, true⟩])
      (by simp at hcap ⊢; omega)
    simp only [List.append_assoc] at this ⊢
    rw [this]
    simp

/-- Two bytes per declared standard model id. -/
theorem flatMap_pair_length (sigs : List (Nat × Nat)) :
    (sigs.flatMap fun p => [p.1, p.2]).length = 2 * sigs.length := by
  induction sigs with
  | nil => simp
  | cons p tl ih => simp [ih]; omega

/-- Four bytes per declared vendor (company id, model id) pair. -/
theorem flatMap_quad_length (vnds : List ((Nat × Nat) × Nat × Nat)) :
    (vnds.flatMap fun q => [q.1.1, q.1.2, q.2.1, q.2.2]).length =
      4 * vnds.length := by
  induction vnds with
  | nil => simp
  | cons q tl ih => simp [ih]; omega

/-- C6: for a 10-byte header followed by one element declaring `k` standard
model ids and `m` vendor (company id, model id) pairs with `k + m ≤ 16`, the
composition parser returns exactly `k + m` descriptors in declaration order:
first the `k` standard ones carrying the standard company sentinel with the
vendor flag false, then the `m` vendor ones carrying their declared company
ids with the vendor flag true. -/
theorem composition_parser_roundtrip (header : List Nat) (l0 l1 : Nat)
    (sigs : List (Nat × Nat)) (vnds : List ((Nat × Nat) × Nat × Nat))
    (hheader : header.length = 10)
    (hcap : sigs.length + vnds.length ≤ MAX_DISCOVERED_MODELS) :
    (let input := header ++ l0 :: l1 :: sigs.length :: vnds.length ::
        ((sigs.flatMap fun p => [p.1, p.2]) ++
         (vnds.flatMap fun q => [q.1.1, q.1.2, q.2.1, q.2.2]))
     parse_composition_data input =
       (sigs.map fun p => ⟨le16 p.1 p.2, ESP_BLE_MESH_CID_NVAL, false⟩) ++
       (vnds.map fun q => ⟨le16 q.2.1 q.2.2, le16 q.1.1 q.1.2, true⟩) ∧
     (parse_composition_data input).length = sigs.length + vnds.length) := by
  intro input
  have hs2 := flatMap_pair_length sigs
  have hv4 := flatMap_quad_length vnds
  have hlen : input.length = 14 + 2 * sigs.length + 4 * vnds.length := by
    simp [input, hheader, hs2, hv4]; omega
  simp only [MAX_DISCOVERED_MODELS] at hcap
  have hmain : parse_composition_data input =
      (sigs.map fun p => ⟨le16 p.1 p.2, ESP_BLE_MESH_CID_NVAL, false⟩) ++
      (vnds.map fun q => ⟨le16 q.2.1 q.2.2, le16 q.1.1 q.1.2, true⟩) := by
    rw [parse_composition_data]
    rw [if_neg (by omega)]
    obtain ⟨f, hf⟩ : ∃ f, input.length = f + 2 := ⟨input.length - 2, by omega⟩
    have hdrop : input.drop 10 = l0 :: l1 :: sigs.length :: vnds.length ::
        ((sigs.flatMap fun p => [p.1, p.2]) ++
         (vnds.flatMap fun q => [q.1.1, q.1.2, q.2.1, q.2.2])) := by
      simp only [input]
      rw [← hheader, List.drop_left]
    rw [hf, hdrop, parseElements]
    rw [if_pos (by simp [MAX_DISCOVERED_MODELS])]
    have hks : sigs.length % 256 = sigs.length := by omega
    have hkv : vnds.length % 256 = vnds.length := by omega
    rw [hks, hkv]
    rw [parseSigModels_exact sigs _ [] MAX_DISCOVERED_MODELS
      (by simp only [List.length_nil, MAX_DISCOVERED_MODELS, Nat.zero_add]; omega)]
    simp only [List.nil_append]
    rw [show (vnds.flatMap fun q => [q.1.1, q.1.2, q.2.1, q.2.2]) =
        (vnds.flatMap fun q => [q.1.1, q.1.2, q.2.1, q.2.2]) ++ [] by simp]
    rw [parseVndModels_exact vnds [] _ MAX_DISCOVERED_MODELS
      (by simp only [List.length_map, MAX_DISCOVERED_MODELS]; omega)]
    rw [parseElements]
    simp
  exact ⟨hmain, by rw [hmain]; simp⟩

/-- C6 witness: one element with two standard ids (0x1000, 0x1102) and one
vendor pair (company 0x0001, model 0x0000) parses to exactly those three
descriptors in order. -/
theorem composition_parser_roundtrip_witness :
    parse_composition_data
      ([1, 2, 3, 4, 5, 6, 7, 8, 9, 10] ++
       [0, 0, 2, 1, 0x00, 0x10, 0x02, 0x11, 0x01, 0x00, 0x00, 0x00]) =
      [⟨0x1000, ESP_BLE_MESH_CID_NVAL, false⟩, ⟨0x1102, ESP_BLE_MESH_CID_NVAL, false⟩,
       ⟨0x0000, 0x0001, true⟩] := by
  have h := (composition_parser_roundtrip [1, 2, 3, 4, 5, 6, 7, 8, 9, 10] 0 0
    [(0x00, 0x10), (0x02, 0x11)] [((0x01, 0x00), 0x00, 0x00)]
    (by decide) (by decide)).1
  simpa using h

/-! ## Step-function equations

One lemma per branch of the C scan loops, used both to reason about the
phases and to state the failure policy (C7). -/

/-- Scan exhausted: the cursor has reached the model count. -/
theorem bind_next_model_stop (sendOk : Nat → Bool) (models : List NodeModel)
    (cursor : Nat) (h : models.length ≤ cursor) :
    bind_next_model sendOk models cursor = ⟨models, cursor, [], false⟩ := by
  rw [bind_next_model]
  rw [dif_neg (by omega)]

/-- A model already bound is skipped without a request. -/
theorem bind_next_model_skip_bound (sendOk : Nat → Bool)
    (models : List NodeModel) (cursor : Nat) (h : cursor < models.length)
    (hb : (models.get ⟨cursor, h⟩).appkey_bound = true) :
    bind_next_model sendOk models cursor =
      bind_next_model sendOk models (cursor + 1) := by
  rw [bind_next_model]
  rw [dif_pos h]
  simp only [hb, if_true]

/-- A model exempt from AppKey binding (the reserved configuration models)
is marked bound and skipped without a request. -/
theorem bind_next_model_skip_exempt (sendOk : Nat → Bool)
    (models : List NodeModel) (cursor : Nat) (h : cursor < models.length)
    (hb : (models.get ⟨cursor, h⟩).appkey_bound = false)
    (he : model_needs_appkey_binding (models.get ⟨cursor, h⟩).model_id
            (models.get ⟨cursor, h⟩).company_id = false) :
    bind_next_model sendOk models cursor =
      bind_next_model sendOk
        (models.set cursor { models.get ⟨cursor, h⟩ with appkey_bound := true })
        (cursor + 1) := by
  rw [bind_next_model]
  rw [dif_pos h]
  simp only [hb, Bool.false_eq_true, if_false, he, not_false_eq_true, if_true]

/-- A bindable model whose submission succeeds: exactly one request is
issued and the step returns awaiting the ack, cursor parked on the model. -/
theorem bind_next_model_submit_ok (sendOk : Nat → Bool)
    (models : List NodeModel) (cursor : Nat) (h : cursor < models.length)
    (hb : (models.get ⟨cursor, h⟩).appkey_bound = false)
    (he : model_needs_appkey_binding (models.get ⟨cursor, h⟩).model_id
            (models.get ⟨cursor, h⟩).company_id = true)
    (hs : sendOk cursor = true) :
    bind_next_model sendOk models cursor =
      ⟨models, cursor,
       [⟨cursor, (models.get ⟨cursor, h⟩).model_id,
         (models.get ⟨cursor, h⟩).company_id, true⟩], true⟩ := by
  rw [bind_next_model]
  rw [dif_pos h]
  simp only [hb, Bool.false_eq_true, if_false, he, not_true_eq_false, hs, if_true]

/-- C7's bind case in equation form: a bindable model whose submission fails
is abandoned — the failed request is recorded, the cursor advances past the
model, and the scan continues within the same invocation. -/
theorem bind_next_model_submit_fail (sendOk : Nat → Bool)
    (models : List NodeModel) (cursor : Nat) (h : cursor < models.length)
    (hb : (models.get ⟨cursor, h⟩).appkey_bound = false)
    (he : model_needs_appkey_binding (models.get ⟨cursor, h⟩).model_id
            (models.get ⟨cursor, h⟩).company_id = true)
    (hs : sendOk cursor = false) :
    bind_next_model sendOk models cursor =
      { bind_next_model sendOk models (cursor + 1) with
        attempts := ⟨cursor, (models.get ⟨cursor, h⟩).model_id,
          (models.get ⟨cursor, h⟩).company_id, false⟩ ::
          (bind_next_model sendOk models (cursor + 1)).attempts } := by
  rw [bind_next_model]
  rw [dif_pos h]
  simp only [hb, Bool.false_eq_true, if_false, he, not_true_eq_false, hs]

/-- Scan exhausted: the cursor has reached the model count. -/
theorem configure_next_publication_stop (sendOk : Nat → Bool)
    (models : List NodeModel) (cursor : Nat) (h : models.length ≤ cursor) :
    configure_next_publication sendOk models cursor = ⟨models, cursor, [], false⟩ := by
  rw [configure_next_publication]
  rw [dif_neg (by omega)]

/-- A model already publish-configured is skipped without a request. -/
theorem configure_next_publication_skip_configured (sendOk : Nat → Bool)
    (models : List NodeModel) (cursor : Nat) (h : cursor < models.length)
    (hb : (models.get ⟨cursor, h⟩).pub_configured = true) :
    configure_next_publication sendOk models cursor =
      configure_next_publication sendOk models (cursor + 1) := by
  rw [configure_next_publication]
  rw [dif_pos h]
  simp only [hb, if_true]

/-- A publish-ineligible model is marked configured and skipped. -/
theorem configure_next_publication_skip_ineligible (sendOk : Nat → Bool)
    (models : List NodeModel) (cursor : Nat) (h : cursor < models.length)
    (hb : (models.get ⟨cursor, h⟩).pub_configured = false)
    (he : model_supports_publication (models.get ⟨cursor, h⟩).model_id
            (models.get ⟨cursor, h⟩).company_id = false) :
    configure_next_publication sendOk models cursor =
      configure_next_publication sendOk
        (models.set cursor { models.get ⟨cursor, h⟩ with pub_configured := true })
        (cursor + 1) := by
  rw [configure_next_publication]
  rw [dif_pos h]
  simp only [hb, Bool.false_eq_true, if_false, he, not_false_eq_true, if_true]

/-- An eligible unconfigured model whose submission succeeds: one request,
then return. -/
theorem configure_next_publication_submit_ok (sendOk : Nat → Bool)
    (models : List NodeModel) (cursor : Nat) (h : cursor < models.length)
    (hb : (models.get ⟨cursor, h⟩).pub_configured = false)
    (he : model_supports_publication (models.get ⟨cursor, h⟩).model_id
            (models.get ⟨cursor, h⟩).company_id = true)
    (hs : sendOk cursor = true) :
    configure_next_publication sendOk models cursor =
      ⟨models, cursor,
       [⟨cursor, (models.get ⟨cursor, h⟩).model_id,
         (models.get ⟨cursor, h⟩).company_id, true⟩], true⟩ := by
  rw [configure_next_publication]
  rw [dif_pos h]
  simp only [hb, Bool.false_eq_true, if_false, he, not_true_eq_false, hs, if_true]

/-- C7's publish case in equation form: a failed submission abandons the
model — cursor advances, scan continues in the same invocation. -/
theorem configure_next_publication_submit_fail (sendOk : Nat → Bool)
    (models : List NodeModel) (cursor : Nat) (h : cursor < models.length)
    (hb : (models.get ⟨cursor, h⟩).pub_configured = false)
    (he : model_supports_publication (models.get ⟨cursor, h⟩).model_id
            (models.get ⟨cursor, h⟩).company_id = true)
    (hs : sendOk cursor = false) :
    configure_next_publication sendOk models cursor =
      { configure_next_publication sendOk models (cursor + 1) with
        attempts := ⟨cursor, (models.get ⟨cursor, h⟩).model_id,
          (models.get ⟨cursor, h⟩).company_id, false⟩ ::
          (configure_next_publication sendOk models (cursor + 1)).attempts } := by
  rw [configure_next_publication]
  rw [dif_pos h]
  simp only [hb, Bool.false_eq_true, if_false, he, not_true_eq_false, hs]

/-- Scan exhausted: the cursor has reached the model count. -/
theorem subscribe_next_model_stop (sendOk : Nat → Bool)
    (models : List NodeModel) (cursor : Nat) (h : models.length ≤ cursor) :
    subscribe_next_model sendOk models cursor = ⟨models, cursor, [], false⟩ := by
  rw [subscribe_next_model]
  rw [dif_neg (by omega)]

/-- A model already subscribe-configured is skipped without a request. -/
theorem subscribe_next_model_skip_configured (sendOk : Nat → Bool)
    (models : List NodeModel) (cursor : Nat) (h : cursor < models.length)
    (hb : (models.get ⟨cursor, h⟩).sub_configured = true) :
    subscribe_next_model sendOk models cursor =
      subscribe_next_model sendOk models (cursor + 1) := by
  rw [subscribe_next_model]
  rw [dif_pos h]
  simp only [hb, if_true]

/-- A subscribe-ineligible model is marked configured and skipped. -/
theorem subscribe_next_model_skip_ineligible (sendOk : Nat → Bool)
    (models : List NodeModel) (cursor : Nat) (h : cursor < models.length)
    (hb : (models.get ⟨cursor, h⟩).sub_configured = false)
    (he : model_supports_subscription (models.get ⟨cursor, h⟩).model_id
            (models.get ⟨cursor, h⟩).company_id = false) :
    subscribe_next_model sendOk models cursor =
      subscribe_next_model sendOk
        (models.set cursor { models.get ⟨cursor, h⟩ with sub_configured := true })
        (cursor + 1) := by
  rw [subscribe_next_model]
  rw [dif_pos h]
  simp only [hb, Bool.false_eq_true, if_false, he, not_false_eq_true, if_true]

/-- An eligible unconfigured model whose submission succeeds: one request,
then return. -/
theorem subscribe_next_model_submit_ok (sendOk : Nat → Bool)
    (models : List NodeModel) (cursor : Nat) (h : cursor < models.length)
    (hb : (models.get ⟨cursor, h⟩).sub_configured = false)
    (he : model_supports_subscription (models.get ⟨cursor, h⟩).model_id
            (models.get ⟨cursor, h⟩).company_id = true)
    (hs : sendOk cursor = true) :
    subscribe_next_model sendOk models cursor =
      ⟨models, cursor,
       [⟨cursor, (models.get ⟨cursor, h⟩).model_id,
         (models.get ⟨cursor, h⟩).company_id, true⟩], true⟩ := by
  rw [subscribe_next_model]
  rw [dif_pos h]
  simp only [hb, Bool.false_eq_true, if_false, he, not_true_eq_false, hs, if_true]

/-- C7's subscribe case in equation form: a failed submission abandons the
model — cursor advances, scan continues in the same invocation. -/
theorem subscribe_next_model_submit_fail (sendOk : Nat → Bool)
    (models : List NodeModel) (cursor : Nat) (h : cursor < models.length)
    (hb : (models.get ⟨cursor, h⟩).sub_configured = false)
    (he : model_supports_subscription (models.get ⟨cursor, h⟩).model_id
            (models.get ⟨cursor, h⟩).company_id = true)
    (hs : sendOk cursor = false) :
    subscribe_next_model sendOk models cursor =
      { subscribe_next_model sendOk models (cursor + 1) with
        attempts := ⟨cursor, (models.get ⟨cursor, h⟩).model_id,
          (models.get ⟨cursor, h⟩).company_id, false⟩ ::
          (subscribe_next_model sendOk models (cursor + 1)).attempts } := by
  rw [subscribe_next_model]
  rw [dif_pos h]
  simp only [hb, Bool.false_eq_true, if_false, he, not_true_eq_false, hs]

/-! ## Attempt bookkeeping facts

Submissions are scanned left to right: every submission in one invocation
targets a model at or after the entry cursor, indices strictly increase
within an invocation (no model is retried), the cursor never moves backwards,
and the cursor ends past every failed submission. -/

/-- Bind-step bookkeeping: attempts sit at or after the entry cursor with
strictly increasing indices, the cursor is monotone, and every failed
attempt ends up strictly below the final cursor. -/
theorem bind_attempt_facts (sendOk : Nat → Bool) (models : List NodeModel)
    (cursor : Nat) :
    (∀ a ∈ (bind_next_model sendOk models cursor).attempts,
        cursor ≤ a.idx ∧
        (a.ok = false → a.idx < (bind_next_model sendOk models cursor).cursor)) ∧
    cursor ≤ (bind_next_model sendOk models cursor).cursor ∧
    (bind_next_model sendOk models cursor).attempts.Pairwise
      (fun x y => x.idx < y.idx) := by
  induction models, cursor using bind_next_model.induct sendOk with
  | case1 models cursor h model hb ih =>
    have hm : model = models.get ⟨cursor, h⟩ := rfl
    rw [hm] at hb
    have hb2 : (models.get ⟨cursor, h⟩).appkey_bound = true := by simpa using hb
    rw [bind_next_model_skip_bound sendOk models cursor h hb2]
    obtain ⟨ih1, ih2, ih3⟩ := ih
    exact ⟨fun a ha => ⟨Nat.le_of_succ_le (ih1 a ha).1, (ih1 a ha).2⟩,
           Nat.le_of_succ_le ih2, ih3⟩
  | case2 models cursor h model hb he ih =>
    have hm : model = models.get ⟨cursor, h⟩ := rfl
    rw [hm] at hb he ih
    have hb2 : (models.get ⟨cursor, h⟩).appkey_bound = false := by simpa using hb
    have he2 : model_needs_appkey_binding (models.get ⟨cursor, h⟩).model_id
        (models.get ⟨cursor, h⟩).company_id = false := by simpa using he
    rw [bind_next_model_skip_exempt sendOk models cursor h hb2 he2]
    obtain ⟨ih1, ih2, ih3⟩ := ih
    exact ⟨fun a ha => ⟨Nat.le_of_succ_le (ih1 a ha).1, (ih1 a ha).2⟩,
           Nat.le_of_succ_le ih2, ih3⟩
  | case3 models cursor h model hb he hs =>
    have hm : model = models.get ⟨cursor, h⟩ := rfl
    rw [hm] at hb he
    have hb2 : (models.get ⟨cursor, h⟩).appkey_bound = false := by simpa using hb
    have he2 : model_needs_appkey_binding (models.get ⟨cursor, h⟩).model_id
        (models.get ⟨cursor, h⟩).company_id = true := by simpa using he
    rw [bind_next_model_submit_ok sendOk models cursor h hb2 he2 hs]
    refine ⟨?_, Nat.le_refl _, by simp⟩
    intro a ha
    simp only [List.mem_singleton] at ha
    subst ha
    exact ⟨Nat.le_refl _, by simp⟩
  | case4 models cursor h model hb he hs ih =>
    have hb2 : (models.get ⟨cursor, h⟩).appkey_bound = false := by simpa using hb
    have he2 : model_needs_appkey_binding (models.get ⟨cursor, h⟩).model_id
        (models.get ⟨cursor, h⟩).company_id = true := by simpa using he
    have hs2 : sendOk cursor = false := by simpa using hs
    rw [bind_next_model_submit_fail sendOk models cursor h hb2 he2 hs2]
    obtain ⟨ih1, ih2, ih3⟩ := ih
    refine ⟨?_, ?_, ?_⟩
    · intro a ha
      simp only [List.mem_cons] at ha
      rcases ha with rfl | ha2
      · exact ⟨Nat.le_refl _, fun _ => by simpa using ih2⟩
      · exact ⟨Nat.le_of_succ_le (ih1 a ha2).1, fun hf => by
          simpa using (ih1 a ha2).2 hf⟩
    · simpa using Nat.le_of_succ_le ih2
    · simp only []
      refine List.Pairwise.cons ?_ ih3
      intro a ha
      exact Nat.lt_of_lt_of_le (Nat.lt_succ_self cursor) (ih1 a ha).1
  | case5 models cursor h =>
    rw [bind_next_model_stop sendOk models cursor (by omega)]
    simp

/-- Publish-step bookkeeping: attempts sit at or after the entry cursor with
strictly increasing indices, the cursor is monotone, and every failed
attempt ends up strictly below the final cursor. -/
theorem publication_attempt_facts (sendOk : Nat → Bool) (models : List NodeModel)
    (cursor : Nat) :
    (∀ a ∈ (configure_next_publication sendOk models cursor).attempts,
        cursor ≤ a.idx ∧
        (a.ok = false → a.idx < (configure_next_publication sendOk models cursor).cursor)) ∧
    cursor ≤ (configure_next_publication sendOk models cursor).cursor ∧
    (configure_next_publication sendOk models cursor).attempts.Pairwise
      (fun x y => x.idx < y.idx) := by
  induction models, cursor using configure_next_publication.induct sendOk with
  | case1 models cursor h model hb ih =>
    have hm : model = models.get ⟨cursor, h⟩ := rfl
    rw [hm] at hb
    have hb2 : (models.get ⟨cursor, h⟩).pub_configured = true := by simpa using hb
    rw [configure_next_publication_skip_configured sendOk models cursor h hb2]
    obtain ⟨ih1, ih2, ih3⟩ := ih
    exact ⟨fun a ha => ⟨Nat.le_of_succ_le (ih1 a ha).1, (ih1 a ha).2⟩,
           Nat.le_of_succ_le ih2, ih3⟩
  | case2 models cursor h model hb he ih =>
    have hm : model = models.get ⟨cursor, h⟩ := rfl
    rw [hm] at hb he ih
    have hb2 : (models.get ⟨cursor, h⟩).pub_configured = false := by simpa using hb
    have he2 : model_supports_publication (models.get ⟨cursor, h⟩).model_id
        (models.get ⟨cursor, h⟩).company_id = false := by simpa using he
    rw [configure_next_publication_skip_ineligible sendOk models cursor h hb2 he2]
    obtain ⟨ih1, ih2, ih3⟩ := ih
    exact ⟨fun a ha => ⟨Nat.le_of_succ_le (ih1 a ha).1, (ih1 a ha).2⟩,
           Nat.le_of_succ_le ih2, ih3⟩
  | case3 models cursor h model hb he hs =>
    have hm : model = models.get ⟨cursor, h⟩ := rfl
    rw [hm] at hb he
    have hb2 : (models.get ⟨cursor, h⟩).pub_configured = false := by simpa using hb
    have he2 : model_supports_publication (models.get ⟨cursor, h⟩).model_id
        (models.get ⟨cursor, h⟩).company_id = true := by simpa using he
    rw [configure_next_publication_submit_ok sendOk models cursor h hb2 he2 hs]
    refine ⟨?_, Nat.le_refl _, by simp⟩
    intro a ha
    simp only [List.mem_singleton] at ha
    subst ha
    exact ⟨Nat.le_refl _, by simp⟩
  | case4 models cursor h model hb he hs ih =>
    have hb2 : (models.get ⟨cursor, h⟩).pub_configured = false := by simpa using hb
    have he2 : model_supports_publication (models.get ⟨cursor, h⟩).model_id
        (models.get ⟨cursor, h⟩).company_id = true := by simpa using he
    have hs2 : sendOk cursor = false := by simpa using hs
    rw [configure_next_publication_submit_fail sendOk models cursor h hb2 he2 hs2]
    obtain ⟨ih1, ih2, ih3⟩ := ih
    refine ⟨?_, ?_, ?_⟩
    · intro a ha
      simp only [List.mem_cons] at ha
      rcases ha with rfl | ha2
      · exact ⟨Nat.le_refl _, fun _ => by simpa using ih2⟩
      · exact ⟨Nat.le_of_succ_le (ih1 a ha2).1, fun hf => by
          simpa using (ih1 a ha2).2 hf⟩
    · simpa using Nat.le_of_succ_le ih2
    · simp only []
      refine List.Pairwise.cons ?_ ih3
      intro a ha
      exact Nat.lt_of_lt_of_le (Nat.lt_succ_self cursor) (ih1 a ha).1
  | case5 models cursor h =>
    rw [configure_next_publication_stop sendOk models cursor (by omega)]
    simp


/-- Subscribe-step bookkeeping: attempts sit at or after the entry cursor with
strictly increasing indices, the cursor is monotone, and every failed
attempt ends up strictly below the final cursor. -/
theorem subscription_attempt_facts (sendOk : Nat → Bool) (models : List NodeModel)
    (cursor : Nat) :
    (∀ a ∈ (subscribe_next_model sendOk models cursor).attempts,
        cursor ≤ a.idx ∧
        (a.ok = false → a.idx < (subscribe_next_model sendOk models cursor).cursor)) ∧
    cursor ≤ (subscribe_next_model sendOk models cursor).cursor ∧
    (subscribe_next_model sendOk models cursor).attempts.Pairwise
      (fun x y => x.idx < y.idx) := by
  induction models, cursor using subscribe_next_model.induct sendOk with
  | case1 models cursor h model hb ih =>
    have hm : model = models.get ⟨cursor, h⟩ := rfl
    rw [hm] at hb
    have hb2 : (models.get ⟨cursor, h⟩).sub_configured = true := by simpa using hb
    rw [subscribe_next_model_skip_configured sendOk models cursor h hb2]
    obtain ⟨ih1, ih2, ih3⟩ := ih
    exact ⟨fun a ha => ⟨Nat.le_of_succ_le (ih1 a ha).1, (ih1 a ha).2⟩,
           Nat.le_of_succ_le ih2, ih3⟩
  | case2 models cursor h model hb he ih =>
    have hm : model = models.get ⟨cursor, h⟩ := rfl
    rw [hm] at hb he ih
    have hb2 : (models.get ⟨cursor, h⟩).sub_configured = false := by simpa using hb
    have he2 : model_supports_subscription (models.get ⟨cursor, h⟩).model_id
        (models.get ⟨cursor, h⟩).company_id = false := by simpa using he
    rw [subscribe_next_model_skip_ineligible sendOk models cursor h hb2 he2]
    obtain ⟨ih1, ih2, ih3⟩ := ih
    exact ⟨fun a ha => ⟨Nat.le_of_succ_le (ih1 a ha).1, (ih1 a ha).2⟩,
           Nat.le_of_succ_le ih2, ih3⟩
  | case3 models cursor h model hb he hs =>
    have hm : model = models.get ⟨cursor, h⟩ := rfl
    rw [hm] at hb he
    have hb2 : (models.get ⟨cursor, h⟩).sub_configured = false := by simpa using hb
    have he2 : model_supports_subscription (models.get ⟨cursor, h⟩).model_id
        (models.get ⟨cursor, h⟩).company_id = true := by simpa using he
    rw [subscribe_next_model_submit_ok sendOk models cursor h hb2 he2 hs]
    refine ⟨?_, Nat.le_refl _, by simp⟩
    intro a ha
    simp only [List.mem_singleton] at ha
    subst ha
    exact ⟨Nat.le_refl _, by simp⟩
  | case4 models cursor h model hb he hs ih =>
    have hb2 : (models.get ⟨cursor, h⟩).sub_configured = false := by simpa using hb
    have he2 : model_supports_subscription (models.get ⟨cursor, h⟩).model_id
        (models.get ⟨cursor, h⟩).company_id = true := by simpa using he
    have hs2 : sendOk cursor = false := by simpa using hs
    rw [subscribe_next_model_submit_fail sendOk models cursor h hb2 he2 hs2]
    obtain ⟨ih1, ih2, ih3⟩ := ih
    refine ⟨?_, ?_, ?_⟩
    · intro a ha
      simp only [List.mem_cons] at ha
      rcases ha with rfl | ha2
      · exact ⟨Nat.le_refl _, fun _ => by simpa using ih2⟩
      · exact ⟨Nat.le_of_succ_le (ih1 a ha2).1, fun hf => by
          simpa using (ih1 a ha2).2 hf⟩
    · simpa using Nat.le_of_succ_le ih2
    · simp only []
      refine List.Pairwise.cons ?_ ih3
      intro a ha
      exact Nat.lt_of_lt_of_le (Nat.lt_succ_self cursor) (ih1 a ha).1
  | case5 models cursor h =>
    rw [subscribe_next_model_stop sendOk models cursor (by omega)]
    simp

/-! ## Acknowledgment-marking lemmas -/

/-- Marking the first bind match preserves the model count. -/
theorem markFirstBound_length (l : List NodeModel) (mid cid : Nat) :
    (markFirstBound l mid cid).length = l.length := by
  induction l with
  | nil => rfl
  | cons m rest ih =>
    rw [markFirstBound]
    split
    · simp
    · simp [ih]

/-- If the model at index `c` matches the acknowledged ids, the bind marking
touches only an index at or before `c`: the suffix past `c` is unchanged. -/
theorem markFirstBound_drop (l : List NodeModel) (mid cid c : Nat)
    (h : c < l.length)
    (hm : (l.get ⟨c, h⟩).model_id = mid ∧ (l.get ⟨c, h⟩).company_id = cid) :
    (markFirstBound l mid cid).drop (c + 1) = l.drop (c + 1) := by
  induction l generalizing c with
  | nil => simp at h
  | cons m rest ih =>
    rw [markFirstBound]
    split
    · simp
    · rename_i hne
      cases c with
      | zero => exact absurd hm (by simpa using hne)
      | succ c2 =>
        simp only [List.drop_succ_cons]
        exact ih c2 (by simpa using h) (by simpa using hm)

/-- Marking the first subscribe match preserves the model count. -/
theorem markFirstSub_length (l : List NodeModel) (mid cid : Nat) :
    (markFirstSub l mid cid).length = l.length := by
  induction l with
  | nil => rfl
  | cons m rest ih =>
    rw [markFirstSub]
    split
    · simp
    · simp [ih]

/-- If the model at index `c` matches the acknowledged ids, the subscribe
marking touches only an index at or before `c`: the suffix past `c` is
unchanged. -/
theorem markFirstSub_drop (l : List NodeModel) (mid cid c : Nat)
    (h : c < l.length)
    (hm : (l.get ⟨c, h⟩).model_id = mid ∧ (l.get ⟨c, h⟩).company_id = cid) :
    (markFirstSub l mid cid).drop (c + 1) = l.drop (c + 1) := by
  induction l generalizing c with
  | nil => simp at h
  | cons m rest ih =>
    rw [markFirstSub]
    split
    · simp
    · rename_i hne
      cases c with
      | zero => exact absurd hm (by simpa using hne)
      | succ c2 =>
        simp only [List.drop_succ_cons]
        exact ih c2 (by simpa using h) (by simpa using hm)

/-! ## Scan characterization when every submission is accepted -/

/-- Submission oracle: the transport accepts every request. -/
def sendAlwaysOk : Nat → Bool := fun _ => true

/-- Bind scan, nothing left to bind: when no model at or after the cursor
needs binding, the step marks the exempt tail, parks the cursor at the model
count and reports exhaustion with zero requests. -/
theorem bind_scan_exhausted (models : List NodeModel) (cursor : Nat)
    (hcur : cursor ≤ models.length)
    (hub : ∀ m ∈ models.drop cursor, m.appkey_bound = false)
    (hE : (models.drop cursor).filter
        (fun m => model_needs_appkey_binding m.model_id m.company_id) = []) :
    (bind_next_model sendAlwaysOk models cursor).attempts = [] ∧
    (bind_next_model sendAlwaysOk models cursor).cursor = models.length ∧
    (bind_next_model sendAlwaysOk models cursor).started = false := by
  induction models, cursor using bind_next_model.induct sendAlwaysOk with
  | case1 models cursor h model hb ih =>
    exfalso
    have hdrop := List.drop_eq_getElem_cons h
    have hub0 := hub (models.get ⟨cursor, h⟩)
      (by rw [hdrop]; exact List.mem_cons_self _ _)
    have hb2 : (models.get ⟨cursor, h⟩).appkey_bound = true := hb
    rw [hub0] at hb2
    cases hb2
  | case2 models cursor h model hb he ih =>
    have hdrop := List.drop_eq_getElem_cons h
    have hub0 := hub (models.get ⟨cursor, h⟩)
      (by rw [hdrop]; exact List.mem_cons_self _ _)
    have he2 : model_needs_appkey_binding (models.get ⟨cursor, h⟩).model_id
        (models.get ⟨cursor, h⟩).company_id = false := by simpa using he
    rw [bind_next_model_skip_exempt sendAlwaysOk models cursor h hub0 he2]
    have hset : (models.set cursor
        { models.get ⟨cursor, h⟩ with appkey_bound := true }).drop (cursor + 1) =
        models.drop (cursor + 1) :=
      List.drop_set_of_lt _ _ (Nat.lt_succ_self cursor)
    have hE2 : (models.drop (cursor + 1)).filter
        (fun m => model_needs_appkey_binding m.model_id m.company_id) = [] := by
      rw [hdrop, List.filter_cons] at hE
      revert hE
      split
      · intro hE; cases hE
      · intro hE; exact hE
    have hconc := ih (by simp; omega)
      (by rw [hset]; intro m hm
          exact hub m (by rw [hdrop]; exact List.mem_cons_of_mem _ hm))
      (by rw [hset]; exact hE2)
    simpa [List.length_set] using hconc
  | case3 models cursor h model hb he hs =>
    exfalso
    have hdrop := List.drop_eq_getElem_cons h
    have he2 : model_needs_appkey_binding (models.get ⟨cursor, h⟩).model_id
        (models.get ⟨cursor, h⟩).company_id = true := by simpa using he
    rw [hdrop, List.filter_cons] at hE
    revert hE
    split
    · intro hE; cases hE
    · rename_i hcond
      intro _
      exact hcond (by simpa using he2)
  | case4 models cursor h model hb he hs ih =>
    exact absurd (by simp [sendAlwaysOk] : sendAlwaysOk cursor = true)
      (by simpa using hs)
  | case5 models cursor h =>
    rw [bind_next_model_stop sendAlwaysOk models cursor (by omega)]
    refine ⟨rfl, ?_, rfl⟩
    show cursor = models.length
    omega

/-- Bind scan, something left to bind: the step walks to the first model
needing a key (marking the exempt models it passes), issues exactly one
successful request for it and returns with the cursor parked there; the
models at or after the parked cursor are untouched. -/
theorem bind_scan_found (models : List NodeModel) (cursor : Nat)
    (e : NodeModel) (rest : List NodeModel)
    (hcur : cursor ≤ models.length)
    (hub : ∀ m ∈ models.drop cursor, m.appkey_bound = false)
    (hE : (models.drop cursor).filter
        (fun m => model_needs_appkey_binding m.model_id m.company_id) = e :: rest) :
    ∃ (j : Nat) (hj : j < models.length) (ms : List NodeModel),
      cursor ≤ j ∧ models.get ⟨j, hj⟩ = e ∧
      (models.drop (j + 1)).filter
        (fun m => model_needs_appkey_binding m.model_id m.company_id) = rest ∧
      ms.length = models.length ∧ ms.drop j = models.drop j ∧
      bind_next_model sendAlwaysOk models cursor =
        ⟨ms, j, [⟨j, e.model_id, e.company_id, true⟩], true⟩ := by
  induction models, cursor using bind_next_model.induct sendAlwaysOk with
  | case1 models cursor h model hb ih =>
    exfalso
    have hdrop := List.drop_eq_getElem_cons h
    have hub0 := hub (models.get ⟨cursor, h⟩)
      (by rw [hdrop]; exact List.mem_cons_self _ _)
    have hb2 : (models.get ⟨cursor, h⟩).appkey_bound = true := hb
    rw [hub0] at hb2
    cases hb2
  | case2 models cursor h model hb he ih =>
    have hdrop := List.drop_eq_getElem_cons h
    have hub0 := hub (models.get ⟨cursor, h⟩)
      (by rw [hdrop]; exact List.mem_cons_self _ _)
    have he2 : model_needs_appkey_binding (models.get ⟨cursor, h⟩).model_id
        (models.get ⟨cursor, h⟩).company_id = false := by simpa using he
    have hset : (models.set cursor
        { models.get ⟨cursor, h⟩ with appkey_bound := true }).drop (cursor + 1) =
        models.drop (cursor + 1) :=
      List.drop_set_of_lt _ _ (Nat.lt_succ_self cursor)
    have hE2 : (models.drop (cursor + 1)).filter
        (fun m => model_needs_appkey_binding m.model_id m.company_id) =
        e :: rest := by
      rw [hdrop, List.filter_cons] at hE
      split at hE
      · rename_i hcond
        exfalso
        have hc2 : model_needs_appkey_binding (models.get ⟨cursor, h⟩).model_id
            (models.get ⟨cursor, h⟩).company_id = true := by simpa using hcond
        rw [he2] at hc2
        cases hc2
      · exact hE
    obtain ⟨j, hj, ms, hcj, hget, hrest, hlen, hdropj, heq⟩ := ih
      (by simp; omega)
      (by rw [hset]; intro m hm
          exact hub m (by rw [hdrop]; exact List.mem_cons_of_mem _ hm))
      (by rw [hset]; exact hE2)
    have hjlen : j < models.length := by simpa [List.length_set] using hj
    refine ⟨j, hjlen, ms, by omega, ?_, ?_, ?_, ?_, ?_⟩
    · rw [← hget]
      have hne : cursor ≠ j := by omega
      simp [List.get_eq_getElem, List.getElem_set, hne]
    · rw [show (models.set cursor
          { models.get ⟨cursor, h⟩ with appkey_bound := true }).drop (j + 1) =
          models.drop (j + 1) from
          List.drop_set_of_lt _ _ (by omega)] at hrest
      exact hrest
    · rw [hlen]; simp
    · rw [hdropj, List.drop_set_of_lt _ _ (by omega)]
    · rw [bind_next_model_skip_exempt sendAlwaysOk models cursor h hub0 he2]
      exact heq
  | case3 models cursor h model hb he hs =>
    have hdrop := List.drop_eq_getElem_cons h
    have hub0 := hub (models.get ⟨cursor, h⟩)
      (by rw [hdrop]; exact List.mem_cons_self _ _)
    have he2 : model_needs_appkey_binding (models.get ⟨cursor, h⟩).model_id
        (models.get ⟨cursor, h⟩).company_id = true := by simpa using he
    have hEc : (models[cursor] :: models.drop (cursor + 1)).filter
        (fun m => model_needs_appkey_binding m.model_id m.company_id) =
        e :: rest := by
      rw [← hdrop]
      exact hE
    rw [List.filter_cons] at hEc
    split at hEc
    · injection hEc with he1 hrest
      refine ⟨cursor, h, models, Nat.le_refl _, he1, hrest, rfl, rfl, ?_⟩
      rw [bind_next_model_submit_ok sendAlwaysOk models cursor h hub0 he2 hs]
      rw [← he1]
      rfl
    · rename_i hcond
      exact absurd (by simpa using he2) hcond
  | case4 models cursor h model hb he hs ih =>
    exact absurd (by simp [sendAlwaysOk] : sendAlwaysOk cursor = true)
      (by simpa using hs)
  | case5 models cursor h =>
    exfalso
    have : models.drop cursor = [] := List.drop_eq_nil_of_le (by omega)
    rw [this] at hE
    cases hE

/-- Subscribe scan, nothing left: when no model at or after the cursor is
subscribe-eligible, the step marks the ineligible tail, parks the cursor at
the model count and reports exhaustion with zero requests. -/
theorem subscribe_scan_exhausted (models : List NodeModel) (cursor : Nat)
    (hcur : cursor ≤ models.length)
    (hub : ∀ m ∈ models.drop cursor, m.sub_configured = false)
    (hE : (models.drop cursor).filter
        (fun m => model_supports_subscription m.model_id m.company_id) = []) :
    (subscribe_next_model sendAlwaysOk models cursor).attempts = [] ∧
    (subscribe_next_model sendAlwaysOk models cursor).cursor = models.length ∧
    (subscribe_next_model sendAlwaysOk models cursor).started = false := by
  induction models, cursor using subscribe_next_model.induct sendAlwaysOk with
  | case1 models cursor h model hb ih =>
    exfalso
    have hdrop := List.drop_eq_getElem_cons h
    have hub0 := hub (models.get ⟨cursor, h⟩)
      (by rw [hdrop]; exact List.mem_cons_self _ _)
    have hb2 : (models.get ⟨cursor, h⟩).sub_configured = true := hb
    rw [hub0] at hb2
    cases hb2
  | case2 models cursor h model hb he ih =>
    have hdrop := List.drop_eq_getElem_cons h
    have hub0 := hub (models.get ⟨cursor, h⟩)
      (by rw [hdrop]; exact List.mem_cons_self _ _)
    have he2 : model_supports_subscription (models.get ⟨cursor, h⟩).model_id
        (models.get ⟨cursor, h⟩).company_id = false := by simpa using he
    rw [subscribe_next_model_skip_ineligible sendAlwaysOk models cursor h hub0 he2]
    have hset : (models.set cursor
        { models.get ⟨cursor, h⟩ with sub_configured := true }).drop (cursor + 1) =
        models.drop (cursor + 1) :=
      List.drop_set_of_lt _ _ (Nat.lt_succ_self cursor)
    have hE2 : (models.drop (cursor + 1)).filter
        (fun m => model_supports_subscription m.model_id m.company_id) = [] := by
      rw [hdrop, List.filter_cons] at hE
      revert hE
      split
      · intro hE; cases hE
      · intro hE; exact hE
    have hconc := ih (by simp; omega)
      (by rw [hset]; intro m hm
          exact hub m (by rw [hdrop]; exact List.mem_cons_of_mem _ hm))
      (by rw [hset]; exact hE2)
    simpa [List.length_set] using hconc
  | case3 models cursor h model hb he hs =>
    exfalso
    have hdrop := List.drop_eq_getElem_cons h
    have he2 : model_supports_subscription (models.get ⟨cursor, h⟩).model_id
        (models.get ⟨cursor, h⟩).company_id = true := by simpa using he
    rw [hdrop, List.filter_cons] at hE
    revert hE
    split
    · intro hE; cases hE
    · rename_i hcond
      intro _
      exact hcond (by simpa using he2)
  | case4 models cursor h model hb he hs ih =>
    exact absurd (by simp [sendAlwaysOk] : sendAlwaysOk cursor = true)
      (by simpa using hs)
  | case5 models cursor h =>
    rw [subscribe_next_model_stop sendAlwaysOk models cursor (by omega)]
    refine ⟨rfl, ?_, rfl⟩
    show cursor = models.length
    omega

/-- Subscribe scan, something left: the step walks to the first
subscribe-eligible unconfigured model (marking the ineligible models it
passes), issues exactly one successful request for it and returns with the
cursor parked there; the models at or after the parked cursor are untouched. -/
theorem subscribe_scan_found (models : List NodeModel) (cursor : Nat)
    (e : NodeModel) (rest : List NodeModel)
    (hcur : cursor ≤ models.length)
    (hub : ∀ m ∈ models.drop cursor, m.sub_configured = false)
    (hE : (models.drop cursor).filter
        (fun m => model_supports_subscription m.model_id m.company_id) = e :: rest) :
    ∃ (j : Nat) (hj : j < models.length) (ms : List NodeModel),
      cursor ≤ j ∧ models.get ⟨j, hj⟩ = e ∧
      (models.drop (j + 1)).filter
        (fun m => model_supports_subscription m.model_id m.company_id) = rest ∧
      ms.length = models.length ∧ ms.drop j = models.drop j ∧
      subscribe_next_model sendAlwaysOk models cursor =
        ⟨ms, j, [⟨j, e.model_id, e.company_id, true⟩], true⟩ := by
  induction models, cursor using subscribe_next_model.induct sendAlwaysOk with
  | case1 models cursor h model hb ih =>
    exfalso
    have hdrop := List.drop_eq_getElem_cons h
    have hub0 := hub (models.get ⟨cursor, h⟩)
      (by rw [hdrop]; exact List.mem_cons_self _ _)
    have hb2 : (models.get ⟨cursor, h⟩).sub_configured = true := hb
    rw [hub0] at hb2
    cases hb2
  | case2 models cursor h model hb he ih =>
    have hdrop := List.drop_eq_getElem_cons h
    have hub0 := hub (models.get ⟨cursor, h⟩)
      (by rw [hdrop]; exact List.mem_cons_self _ _)
    have he2 : model_supports_subscription (models.get ⟨cursor, h⟩).model_id
        (models.get ⟨cursor, h⟩).company_id = false := by simpa using he
    have hset : (models.set cursor
        { models.get ⟨cursor, h⟩ with sub_configured := true }).drop (cursor + 1) =
        models.drop (cursor + 1) :=
      List.drop_set_of_lt _ _ (Nat.lt_succ_self cursor)
    have hE2 : (models.drop (cursor + 1)).filter
        (fun m => model_supports_subscription m.model_id m.company_id) =
        e :: rest := by
      rw [hdrop, List.filter_cons] at hE
      split at hE
      · rename_i hcond
        exfalso
        have hc2 : model_supports_subscription (models.get ⟨cursor, h⟩).model_id
            (models.get ⟨cursor, h⟩).company_id = true := by simpa using hcond
        rw [he2] at hc2
        cases hc2
      · exact hE
    obtain ⟨j, hj, ms, hcj, hget, hrest, hlen, hdropj, heq⟩ := ih
      (by simp; omega)
      (by rw [hset]; intro m hm
          exact hub m (by rw [hdrop]; exact List.mem_cons_of_mem _ hm))
      (by rw [hset]; exact hE2)
    have hjlen : j < models.length := by simpa [List.length_set] using hj
    refine ⟨j, hjlen, ms, by omega, ?_, ?_, ?_, ?_, ?_⟩
    · rw [← hget]
      have hne : cursor ≠ j := by omega
      simp [List.get_eq_getElem, List.getElem_set, hne]
    · rw [show (models.set cursor
          { models.get ⟨cursor, h⟩ with sub_configured := true }).drop (j + 1) =
          models.drop (j + 1) from
          List.drop_set_of_lt _ _ (by omega)] at hrest
      exact hrest
    · rw [hlen]; simp
    · rw [hdropj, List.drop_set_of_lt _ _ (by omega)]
    · rw [subscribe_next_model_skip_ineligible sendAlwaysOk models cursor h hub0 he2]
      exact heq
  | case3 models cursor h model hb he hs =>
    have hdrop := List.drop_eq_getElem_cons h
    have hub0 := hub (models.get ⟨cursor, h⟩)
      (by rw [hdrop]; exact List.mem_cons_self _ _)
    have he2 : model_supports_subscription (models.get ⟨cursor, h⟩).model_id
        (models.get ⟨cursor, h⟩).company_id = true := by simpa using he
    have hEc : (models[cursor] :: models.drop (cursor + 1)).filter
        (fun m => model_supports_subscription m.model_id m.company_id) =
        e :: rest := by
      rw [← hdrop]
      exact hE
    rw [List.filter_cons] at hEc
    split at hEc
    · injection hEc with he1 hrest
      refine ⟨cursor, h, models, Nat.le_refl _, he1, hrest, rfl, rfl, ?_⟩
      rw [subscribe_next_model_submit_ok sendAlwaysOk models cursor h hub0 he2 hs]
      rw [← he1]
      rfl
    · rename_i hcond
      exact absurd (by simpa using he2) hcond
  | case4 models cursor h model hb he hs ih =>
    exact absurd (by simp [sendAlwaysOk] : sendAlwaysOk cursor = true)
      (by simpa using hs)
  | case5 models cursor h =>
    exfalso
    have : models.drop cursor = [] := List.drop_eq_nil_of_le (by omega)
    rw [this] at hE
    cases hE

/-- The whole bind phase under accepted submissions: starting anywhere with
an all-unbound tail, the ack-driven loop issues exactly one successful
request per key-needing model, in model-list order, and ends with the cursor
at the model count (whereupon the dispatcher moves to the publish phase). -/
theorem runBindPhase_exact (E : List NodeModel) (models : List NodeModel)
    (cursor fuel : Nat)
    (hcur : cursor ≤ models.length)
    (hub : ∀ m ∈ models.drop cursor, m.appkey_bound = false)
    (hE : (models.drop cursor).filter
        (fun m => model_needs_appkey_binding m.model_id m.company_id) = E)
    (hfuel : models.length - cursor < fuel) :
    (runBindPhase sendAlwaysOk fuel models cursor).1.map
        (fun a => (a.model_id, a.company_id, a.ok)) =
      E.map (fun m => (m.model_id, m.company_id, true)) ∧
    (runBindPhase sendAlwaysOk fuel models cursor).2.2 = models.length := by
  induction E generalizing models cursor fuel with
  | nil =>
    cases fuel with
    | zero => omega
    | succ f =>
      obtain ⟨h1, h2, h3⟩ := bind_scan_exhausted models cursor hcur hub hE
      rw [runBindPhase]
      simp [h1, h2, h3]
  | cons e rest ih =>
    cases fuel with
    | zero => omega
    | succ f =>
      obtain ⟨j, hj, ms, hcj, hget, hrest, hlen, hdropj, heq⟩ :=
        bind_scan_found models cursor e rest hcur hub hE
      have hj2 : j < ms.length := by omega
      have hdropj1 : ms.drop (j + 1) = models.drop (j + 1) := by
        have e1 : ms.drop (j + 1) = (ms.drop j).drop 1 := by
          rw [List.drop_drop]
        have e2 : models.drop (j + 1) = (models.drop j).drop 1 := by
          rw [List.drop_drop]
        rw [e1, e2, hdropj]
      have hopt : ms[j]? = models[j]? := by
        have e1 := List.getElem?_drop ms j 0
        have e2 := List.getElem?_drop models j 0
        rw [Nat.add_zero] at e1 e2
        rw [← e1, ← e2, hdropj]
      have hmsj : ms.get ⟨j, hj2⟩ = e := by
        rw [← hget]
        have t1 : ms[j]? = some ms[j] :=
          (List.getElem?_eq_some_getElem_iff ms j hj2).mpr trivial
        have t2 : models[j]? = some models[j] :=
          (List.getElem?_eq_some_getElem_iff models j hj).mpr trivial
        rw [t1, t2] at hopt
        exact Option.some.inj hopt
      have hmatch : (ms.get ⟨j, hj2⟩).model_id = e.model_id ∧
          (ms.get ⟨j, hj2⟩).company_id = e.company_id := by
        rw [hmsj]; exact ⟨rfl, rfl⟩
      have hdrop2 : (markFirstBound ms e.model_id e.company_id).drop (j + 1) =
          models.drop (j + 1) := by
        rw [markFirstBound_drop ms e.model_id e.company_id j hj2 hmatch]
        exact hdropj1
      have hlen2 : (markFirstBound ms e.model_id e.company_id).length =
          models.length := by
        rw [markFirstBound_length, hlen]
      have hsub : ∀ m ∈ models.drop (j + 1), m ∈ models.drop cursor := by
        intro m hm
        have hsplit : models.drop (j + 1) =
            (models.drop cursor).drop (j + 1 - cursor) := by
          rw [List.drop_drop]
          congr 1
          omega
        rw [hsplit] at hm
        exact List.mem_of_mem_drop hm
      have IH := ih (markFirstBound ms e.model_id e.company_id) (j + 1) f
        (by simp only [markFirstBound_length, hlen]; omega)
        (by rw [hdrop2]; intro m hm; exact hub m (hsub m hm))
        (by rw [hdrop2]; exact hrest)
        (by simp only [markFirstBound_length, hlen]; omega)
      rw [runBindPhase]
      rcases hrun : runBindPhase sendAlwaysOk f
        (markFirstBound ms e.model_id e.company_id) (j + 1) with ⟨atts2, fm2, fc2⟩
      rw [hrun] at IH
      rw [heq]
      simp only [List.getLast?_singleton, List.map_cons, List.map_nil,
        List.singleton_append, if_true]
      rw [hrun]
      simp only [] at IH
      refine ⟨?_, ?_⟩
      · simp only [List.map_cons]
        rw [IH.1]
      · rw [IH.2, hlen2]

/-- With every submission accepted, one bind-step invocation submits at most
one request. -/
theorem bind_okAll_at_most_one (models : List NodeModel) (cursor : Nat) :
    (bind_next_model sendAlwaysOk models cursor).attempts.length ≤ 1 := by
  induction models, cursor using bind_next_model.induct sendAlwaysOk with
  | case1 models cursor h model hb ih =>
    have hb2 : (models.get ⟨cursor, h⟩).appkey_bound = true := hb
    rw [bind_next_model_skip_bound sendAlwaysOk models cursor h hb2]
    exact ih
  | case2 models cursor h model hb he ih =>
    have hb2 : (models.get ⟨cursor, h⟩).appkey_bound = false := by simpa using hb
    have he2 : model_needs_appkey_binding (models.get ⟨cursor, h⟩).model_id
        (models.get ⟨cursor, h⟩).company_id = false := by simpa using he
    rw [bind_next_model_skip_exempt sendAlwaysOk models cursor h hb2 he2]
    exact ih
  | case3 models cursor h model hb he hs =>
    have hb2 : (models.get ⟨cursor, h⟩).appkey_bound = false := by simpa using hb
    have he2 : model_needs_appkey_binding (models.get ⟨cursor, h⟩).model_id
        (models.get ⟨cursor, h⟩).company_id = true := by simpa using he
    rw [bind_next_model_submit_ok sendAlwaysOk models cursor h hb2 he2 hs]
    simp
  | case4 models cursor h model hb he hs ih =>
    exact absurd (by simp [sendAlwaysOk] : sendAlwaysOk cursor = true)
      (by simpa using hs)
  | case5 models cursor h =>
    rw [bind_next_model_stop sendAlwaysOk models cursor (by omega)]
    simp

/-- C5: (1) the two reserved configuration models (ids 0 and 1 with the
standard company tag) are marked bound and skipped without any bind request
being issued for them; (2) one invocation of the bind step issues at most one
request and then returns; (3) over the whole ack-driven bind phase
(`runBindPhase` is the MODEL_APP_BIND loop of `mesh_config_client_cb`), a
node whose M models all start unbound receives exactly one successful bind
request per bind-eligible model — M requests, one per acknowledgment, in
model order — after which the cursor sits at the model count and the
dispatcher leaves `Binding` for the publish phase. -/
theorem bind_phase_exact_requests :
    (∀ (sendOk : Nat → Bool) (models : List NodeModel) (cursor : Nat)
        (h : cursor < models.length),
        (models.get ⟨cursor, h⟩).company_id = ESP_BLE_MESH_CID_NVAL →
        ((models.get ⟨cursor, h⟩).model_id = 0x0000 ∨
         (models.get ⟨cursor, h⟩).model_id = 0x0001) →
        (models.get ⟨cursor, h⟩).appkey_bound = false →
        bind_next_model sendOk models cursor =
          bind_next_model sendOk
            (models.set cursor
              { models.get ⟨cursor, h⟩ with appkey_bound := true })
            (cursor + 1)) ∧
    (∀ (models : List NodeModel) (cursor : Nat),
        (bind_next_model sendAlwaysOk models cursor).attempts.length ≤ 1) ∧
    (∀ (models : List NodeModel) (fuel : Nat),
        (∀ m ∈ models, m.appkey_bound = false) →
        models.length < fuel →
        (runBindPhase sendAlwaysOk fuel models 0).1.map
            (fun a => (a.model_id, a.company_id, a.ok)) =
          (models.filter
              (fun m => model_needs_appkey_binding m.model_id m.company_id)).map
            (fun m => (m.model_id, m.company_id, true)) ∧
        (runBindPhase sendAlwaysOk fuel models 0).2.2 = models.length) := by
  refine ⟨?_, bind_okAll_at_most_one, ?_⟩
  · intro sendOk models cursor h hcid hmid hb
    have he : model_needs_appkey_binding (models.get ⟨cursor, h⟩).model_id
        (models.get ⟨cursor, h⟩).company_id = false := by
      rw [model_needs_appkey_binding]
      rw [if_neg (by simp only [ne_eq, not_not]; exact hcid)]
      rw [if_pos hmid]
    exact bind_next_model_skip_exempt sendOk models cursor h hb he
  · intro models fuel hub hfuel
    have h := runBindPhase_exact
      (models.filter (fun m => model_needs_appkey_binding m.model_id m.company_id))
      models 0 fuel (Nat.zero_le _)
      (by simpa using hub) (by simp) (by omega)
    exact h

/-- C5 witness: a node with a reserved configuration model, one standard
server model and one vendor model — two bind-eligible models, two successful
requests in order, zero requests for the reserved model, final cursor 3. -/
theorem bind_phase_exact_requests_witness :
    (runBindPhase sendAlwaysOk 4
        [NodeModel.fresh 0x0000 ESP_BLE_MESH_CID_NVAL false,
         NodeModel.fresh 0x1000 ESP_BLE_MESH_CID_NVAL false,
         NodeModel.fresh 0x0000 0x0001 true] 0).1.map
        (fun a => (a.model_id, a.company_id, a.ok)) =
      [(0x1000, ESP_BLE_MESH_CID_NVAL, true), (0x0000, 0x0001, true)] ∧
    (runBindPhase sendAlwaysOk 4
        [NodeModel.fresh 0x0000 ESP_BLE_MESH_CID_NVAL false,
         NodeModel.fresh 0x1000 ESP_BLE_MESH_CID_NVAL false,
         NodeModel.fresh 0x0000 0x0001 true] 0).2.2 = 3 := by
  have h := bind_phase_exact_requests.2.2
    [NodeModel.fresh 0x0000 ESP_BLE_MESH_CID_NVAL false,
     NodeModel.fresh 0x1000 ESP_BLE_MESH_CID_NVAL false,
     NodeModel.fresh 0x0000 0x0001 true] 4
    (by decide) (by decide)
  constructor
  · rw [h.1]; decide
  · rw [h.2]; decide

/-- C7: the failure policy of all three configuration steps.  When submitting
a request for the model at the cursor fails, that model is abandoned: the
failed submission is recorded, the cursor advances past the model, and the
same invocation continues scanning from the next model (the equations for
bind, publish, subscribe).  No retry and no escalation happen: within any
invocation submission indices strictly increase and all sit at or after the
entry cursor, the cursor never decreases, and every failed submission's index
ends up strictly below the resulting cursor — so a later re-invocation
(which scans from the stored cursor) can never target it again; the step
functions return only the normal scan result, surfacing no error. -/
theorem failed_request_abandoned :
    (∀ (sendOk : Nat → Bool) (models : List NodeModel) (cursor : Nat)
        (h : cursor < models.length),
        (models.get ⟨cursor, h⟩).appkey_bound = false →
        model_needs_appkey_binding (models.get ⟨cursor, h⟩).model_id
          (models.get ⟨cursor, h⟩).company_id = true →
        sendOk cursor = false →
        bind_next_model sendOk models cursor =
          { bind_next_model sendOk models (cursor + 1) with
            attempts := ⟨cursor, (models.get ⟨cursor, h⟩).model_id,
              (models.get ⟨cursor, h⟩).company_id, false⟩ ::
              (bind_next_model sendOk models (cursor + 1)).attempts }) ∧
    (∀ (sendOk : Nat → Bool) (models : List NodeModel) (cursor : Nat)
        (h : cursor < models.length),
        (models.get ⟨cursor, h⟩).pub_configured = false →
        model_supports_publication (models.get ⟨cursor, h⟩).model_id
          (models.get ⟨cursor, h⟩).company_id = true →
        sendOk cursor = false →
        configure_next_publication sendOk models cursor =
          { configure_next_publication sendOk models (cursor + 1) with
            attempts := ⟨cursor, (models.get ⟨cursor, h⟩).model_id,
              (models.get ⟨cursor, h⟩).company_id, false⟩ ::
              (configure_next_publication sendOk models (cursor + 1)).attempts }) ∧
    (∀ (sendOk : Nat → Bool) (models : List NodeModel) (cursor : Nat)
        (h : cursor < models.length),
        (models.get ⟨cursor, h⟩).sub_configured = false →
        model_supports_subscription (models.get ⟨cursor, h⟩).model_id
          (models.get ⟨cursor, h⟩).company_id = true →
        sendOk cursor = false →
        subscribe_next_model sendOk models cursor =
          { subscribe_next_model sendOk models (cursor + 1) with
            attempts := ⟨cursor, (models.get ⟨cursor, h⟩).model_id,
              (models.get ⟨cursor, h⟩).company_id, false⟩ ::
              (subscribe_next_model sendOk models (cursor + 1)).attempts }) ∧
    (∀ (sendOk : Nat → Bool) (models : List NodeModel) (cursor : Nat),
        (∀ a ∈ (bind_next_model sendOk models cursor).attempts,
            cursor ≤ a.idx ∧
            (a.ok = false →
              a.idx < (bind_next_model sendOk models cursor).cursor)) ∧
        cursor ≤ (bind_next_model sendOk models cursor).cursor ∧
        (bind_next_model sendOk models cursor).attempts.Pairwise
          (fun x y => x.idx < y.idx)) ∧
    (∀ (sendOk : Nat → Bool) (models : List NodeModel) (cursor : Nat),
        (∀ a ∈ (configure_next_publication sendOk models cursor).attempts,
            cursor ≤ a.idx ∧
            (a.ok = false →
              a.idx < (configure_next_publication sendOk models cursor).cursor)) ∧
        cursor ≤ (configure_next_publication sendOk models cursor).cursor ∧
        (configure_next_publication sendOk models cursor).attempts.Pairwise
          (fun x y => x.idx < y.idx)) ∧
    (∀ (sendOk : Nat → Bool) (models : List NodeModel) (cursor : Nat),
        (∀ a ∈ (subscribe_next_model sendOk models cursor).attempts,
            cursor ≤ a.idx ∧
            (a.ok = false →
              a.idx < (subscribe_next_model sendOk models cursor).cursor)) ∧
        cursor ≤ (subscribe_next_model sendOk models cursor).cursor ∧
        (subscribe_next_model sendOk models cursor).attempts.Pairwise
          (fun x y => x.idx < y.idx)) :=
  ⟨fun sendOk models cursor h hb he hs =>
      bind_next_model_submit_fail sendOk models cursor h hb he hs,
   fun sendOk models cursor h hb he hs =>
      configure_next_publication_submit_fail sendOk models cursor h hb he hs,
   fun sendOk models cursor h hb he hs =>
      subscribe_next_model_submit_fail sendOk models cursor h hb he hs,
   fun sendOk models cursor => bind_attempt_facts sendOk models cursor,
   fun sendOk models cursor => publication_attempt_facts sendOk models cursor,
   fun sendOk models cursor => subscription_attempt_facts sendOk models cursor⟩

/-- C7 witness: with a transport that rejects everything, a single eligible
model is abandoned — the bind step records the failed submission, advances
the cursor past the model, finishes the scan, and reports exhaustion. -/
theorem failed_request_abandoned_witness :
    bind_next_model (fun _ => false)
        [NodeModel.fresh 0x1000 ESP_BLE_MESH_CID_NVAL false] 0 =
      ⟨[NodeModel.fresh 0x1000 ESP_BLE_MESH_CID_NVAL false], 1,
       [⟨0, 0x1000, ESP_BLE_MESH_CID_NVAL, false⟩], false⟩ := by
  have h := failed_request_abandoned.1 (fun _ => false)
    [NodeModel.fresh 0x1000 ESP_BLE_MESH_CID_NVAL false] 0
    (by decide) (by decide) (by decide) rfl
  rw [h]
  have hstop := bind_next_model_stop (fun _ => false)
    [NodeModel.fresh 0x1000 ESP_BLE_MESH_CID_NVAL false] (0 + 1) (by simp)
  rw [hstop]
  rfl

/-- The whole subscribe phase under accepted submissions: from any point with
an all-unconfigured tail, the ack-driven loop issues exactly one successful
subscribe request per subscribe-eligible model, in model-list order, then
transitions to `Ready` (ready flag set, exactly one more ready event emitted)
with the cursor at the model count. -/
theorem runSubscribePhase_exact (E : List NodeModel) (models : List NodeModel)
    (cursor : Nat) (ready0 : Bool) (ev0 fuel : Nat)
    (hcur : cursor ≤ models.length)
    (hub : ∀ m ∈ models.drop cursor, m.sub_configured = false)
    (hE : (models.drop cursor).filter
        (fun m => model_supports_subscription m.model_id m.company_id) = E)
    (hfuel : models.length - cursor < fuel) :
    (runSubscribePhase sendAlwaysOk fuel ⟨models, cursor, ready0, ev0⟩).2.map
        (fun a => (a.model_id, a.company_id, a.ok)) =
      E.map (fun m => (m.model_id, m.company_id, true)) ∧
    (runSubscribePhase sendAlwaysOk fuel ⟨models, cursor, ready0, ev0⟩).1.ready =
      true ∧
    (runSubscribePhase sendAlwaysOk fuel
        ⟨models, cursor, ready0, ev0⟩).1.readyEvents = ev0 + 1 ∧
    (runSubscribePhase sendAlwaysOk fuel ⟨models, cursor, ready0, ev0⟩).1.cursor =
      models.length := by
  induction E generalizing models cursor fuel with
  | nil =>
    cases fuel with
    | zero => omega
    | succ f =>
      obtain ⟨h1, h2, h3⟩ := subscribe_scan_exhausted models cursor hcur hub hE
      rw [runSubscribePhase]
      simp [h1, h2, h3]
  | cons e rest ih =>
    cases fuel with
    | zero => omega
    | succ f =>
      obtain ⟨j, hj, ms, hcj, hget, hrest, hlen, hdropj, heq⟩ :=
        subscribe_scan_found models cursor e rest hcur hub hE
      have hj2 : j < ms.length := by omega
      have hdropj1 : ms.drop (j + 1) = models.drop (j + 1) := by
        have e1 : ms.drop (j + 1) = (ms.drop j).drop 1 := by
          rw [List.drop_drop]
        have e2 : models.drop (j + 1) = (models.drop j).drop 1 := by
          rw [List.drop_drop]
        rw [e1, e2, hdropj]
      have hopt : ms[j]? = models[j]? := by
        have e1 := List.getElem?_drop ms j 0
        have e2 := List.getElem?_drop models j 0
        rw [Nat.add_zero] at e1 e2
        rw [← e1, ← e2, hdropj]
      have hmsj : ms.get ⟨j, hj2⟩ = e := by
        rw [← hget]
        have t1 : ms[j]? = some ms[j] :=
          (List.getElem?_eq_some_getElem_iff ms j hj2).mpr trivial
        have t2 : models[j]? = some models[j] :=
          (List.getElem?_eq_some_getElem_iff models j hj).mpr trivial
        rw [t1, t2] at hopt
        exact Option.some.inj hopt
      have hmatch : (ms.get ⟨j, hj2⟩).model_id = e.model_id ∧
          (ms.get ⟨j, hj2⟩).company_id = e.company_id := by
        rw [hmsj]; exact ⟨rfl, rfl⟩
      have hdrop2 : (markFirstSub ms e.model_id e.company_id).drop (j + 1) =
          models.drop (j + 1) := by
        rw [markFirstSub_drop ms e.model_id e.company_id j hj2 hmatch]
        exact hdropj1
      have hlen2 : (markFirstSub ms e.model_id e.company_id).length =
          models.length := by
        rw [markFirstSub_length, hlen]
      have hsub : ∀ m ∈ models.drop (j + 1), m ∈ models.drop cursor := by
        intro m hm
        have hsplit : models.drop (j + 1) =
            (models.drop cursor).drop (j + 1 - cursor) := by
          rw [List.drop_drop]
          congr 1
          omega
        rw [hsplit] at hm
        exact List.mem_of_mem_drop hm
      have IH := ih (markFirstSub ms e.model_id e.company_id) (j + 1) f
        (by simp only [markFirstSub_length, hlen]; omega)
        (by rw [hdrop2]; intro m hm; exact hub m (hsub m hm))
        (by rw [hdrop2]; exact hrest)
        (by simp only [markFirstSub_length, hlen]; omega)
      rw [runSubscribePhase]
      rcases hrun : runSubscribePhase sendAlwaysOk f
        ⟨markFirstSub ms e.model_id e.company_id, j + 1, ready0, ev0⟩
        with ⟨stF, atts2⟩
      rw [hrun] at IH
      rw [heq]
      simp only [List.getLast?_singleton, List.map_cons, List.map_nil,
        List.singleton_append, if_true]
      rw [hrun]
      simp only [] at IH
      refine ⟨?_, IH.2.1, IH.2.2.1, by rw [IH.2.2.2, hlen2]⟩
      simp only [List.map_cons]
      rw [IH.1]

/-- With every submission accepted, one subscribe-step invocation submits at
most one request. -/
theorem subscribe_okAll_at_most_one (models : List NodeModel) (cursor : Nat) :
    (subscribe_next_model sendAlwaysOk models cursor).attempts.length ≤ 1 := by
  induction models, cursor using subscribe_next_model.induct sendAlwaysOk with
  | case1 models cursor h model hb ih =>
    have hb2 : (models.get ⟨cursor, h⟩).sub_configured = true := hb
    rw [subscribe_next_model_skip_configured sendAlwaysOk models cursor h hb2]
    exact ih
  | case2 models cursor h model hb he ih =>
    have hb2 : (models.get ⟨cursor, h⟩).sub_configured = false := by simpa using hb
    have he2 : model_supports_subscription (models.get ⟨cursor, h⟩).model_id
        (models.get ⟨cursor, h⟩).company_id = false := by simpa using he
    rw [subscribe_next_model_skip_ineligible sendAlwaysOk models cursor h hb2 he2]
    exact ih
  | case3 models cursor h model hb he hs =>
    have hb2 : (models.get ⟨cursor, h⟩).sub_configured = false := by simpa using hb
    have he2 : model_supports_subscription (models.get ⟨cursor, h⟩).model_id
        (models.get ⟨cursor, h⟩).company_id = true := by simpa using he
    rw [subscribe_next_model_submit_ok sendAlwaysOk models cursor h hb2 he2 hs]
    simp
  | case4 models cursor h model hb he hs ih =>
    exact absurd (by simp [sendAlwaysOk] : sendAlwaysOk cursor = true)
      (by simpa using hs)
  | case5 models cursor h =>
    rw [subscribe_next_model_stop sendAlwaysOk models cursor (by omega)]
    simp

/-- C1: entering the subscribe phase with all subscribe flags clear, the
ack-driven loop (`runSubscribePhase`, the spec-modelled MODEL_SUB_ADD
dispatcher around the `src/` `subscribe_next_model`) issues exactly one
successful subscribe request per subscribe-eligible receiver-type model, one
per acknowledgment and in model order; on exhaustion it transitions to
`Ready` with exactly one ready event emitted and the cursor at the model
count.  Each step invocation submits at most one request, and `Ready` is
terminal: a further acknowledgment in the `Ready` state changes nothing and
emits nothing. -/
theorem subscribe_phase_ready_once :
    (∀ (models : List NodeModel) (fuel : Nat),
        (∀ m ∈ models, m.sub_configured = false) →
        models.length < fuel →
        ((runSubscribePhase sendAlwaysOk fuel ⟨models, 0, false, 0⟩).2.map
            (fun a => (a.model_id, a.company_id, a.ok)) =
          (models.filter
              (fun m => model_supports_subscription m.model_id m.company_id)).map
            (fun m => (m.model_id, m.company_id, true)) ∧
         (runSubscribePhase sendAlwaysOk fuel ⟨models, 0, false, 0⟩).1.ready =
           true ∧
         (runSubscribePhase sendAlwaysOk fuel
             ⟨models, 0, false, 0⟩).1.readyEvents = 1 ∧
         (runSubscribePhase sendAlwaysOk fuel ⟨models, 0, false, 0⟩).1.cursor =
           models.length)) ∧
    (∀ (models : List NodeModel) (cursor : Nat),
        (subscribe_next_model sendAlwaysOk models cursor).attempts.length ≤ 1) ∧
    (∀ (sendOk : Nat → Bool) (st : SubPhaseState) (mid cid : Nat),
        st.ready = true → subscribe_ack sendOk st mid cid = (st, [])) := by
  refine ⟨?_, subscribe_okAll_at_most_one, ?_⟩
  · intro models fuel hub hfuel
    exact runSubscribePhase_exact
      (models.filter (fun m => model_supports_subscription m.model_id m.company_id))
      models 0 false 0 fuel (Nat.zero_le _)
      (by simpa using hub) (by simp) (by omega)
  · intro sendOk st mid cid hready
    rw [subscribe_ack, if_pos hready]

/-- C1 witness: a node with a sensor-client model, a server model and the
vendor client — the subscribe phase issues exactly the two eligible
requests, ends `Ready` with one ready event, and a further ack in `Ready`
does nothing. -/
theorem subscribe_phase_ready_once_witness :
    ((runSubscribePhase sendAlwaysOk 4
        ⟨[NodeModel.fresh 0x1102 ESP_BLE_MESH_CID_NVAL false,
          NodeModel.fresh 0x1000 ESP_BLE_MESH_CID_NVAL false,
          NodeModel.fresh 0x0000 0x0001 true],
         0, false, 0⟩).2.map (fun a => (a.model_id, a.company_id, a.ok)) =
      [(0x1102, ESP_BLE_MESH_CID_NVAL, true), (0x0000, 0x0001, true)]) ∧
    subscribe_ack sendAlwaysOk ⟨[], 0, true, 1⟩ 0x1102 ESP_BLE_MESH_CID_NVAL =
      (⟨[], 0, true, 1⟩, []) := by
  constructor
  · have h := (subscribe_phase_ready_once.1
      [NodeModel.fresh 0x1102 ESP_BLE_MESH_CID_NVAL false,
       NodeModel.fresh 0x1000 ESP_BLE_MESH_CID_NVAL false,
       NodeModel.fresh 0x0000 0x0001 true] 4 (by decide) (by decide)).1
    rw [h]
    decide
  · exact subscribe_phase_ready_once.2.2 sendAlwaysOk ⟨[], 0, true, 1⟩
      0x1102 ESP_BLE_MESH_CID_NVAL rfl

end ESP32Prov
